import Mathlib

set_option maxRecDepth 40000

/-!
A shallow embedding of the PBX/TU telephone-exchange server (src/tu.c,
src/pbx.c, src/server.c) together with theorems checking the claims of the
design specification against it.

Modelling conventions:
* A TU object is identified by a `Nat` id (standing for its address); the
  heap of live TUs is an association list `Sys`.  `lookupTU` is a pointer
  dereference, `updateTU` a field store, `removeTU` a `free`.
* Dereferencing a dangling or NULL pointer, and the use-after-free paths,
  yield `none` (undefined behaviour); every defined C execution of the
  modelled operations yields `some`.
* Each operation returns, besides the new heap, an `Eff` record collecting
  the socket writes performed (`writes`, in program order, assuming the
  `write` system call succeeds), the file descriptors closed (`closes`),
  and the mutex operations performed (`locks`), and the C `int` result.
* `snprintf` into a `char[n]` buffer is modelled by `sn n`, which truncates
  to `n - 1` characters.
* The enumeration order of `TU_STATE` is the index order of the
  `state_messages` array in `notify_client_of_tu_state` (tu.c).
-/

/-- States of a TU, in the order used by the `state_messages` array in tu.c. -/
inductive TU_STATE where
  | TU_ON_HOOK
  | TU_RINGING
  | TU_DIAL_TONE
  | TU_RING_BACK
  | TU_BUSY_SIGNAL
  | TU_CONNECTED
  | TU_ERROR
deriving DecidableEq, Repr

/-- The fields of `struct tu` (tu.c): file descriptor, extension, reference
count, FSM state and optional peer pointer.  The mutex is not a datum. -/
structure TUData where
  fd : Int
  ext : Int
  ref_count : Int
  state : TU_STATE
  peer : Option Nat
deriving DecidableEq, Repr

/-- The heap of live TU objects, keyed by object identity. -/
abbrev Sys := List (Nat × TUData)

/-- Dereference a TU pointer. -/
def lookupTU : Sys → Nat → Option TUData
  | [], _ => none
  | (k, v) :: rest, i => if k = i then some v else lookupTU rest i

/-- Store new field values into a live TU object. -/
def updateTU : Sys → Nat → TUData → Sys
  | [], _, _ => []
  | (k, v) :: rest, i, d => if k = i then (k, d) :: rest else (k, v) :: updateTU rest i d

/-- Free a TU object. -/
def removeTU : Sys → Nat → Sys
  | [], _ => []
  | (k, v) :: rest, i => if k = i then removeTU rest i else (k, v) :: removeTU rest i

/-- A mutex operation: the PBX registry lock or a TU's per-object mutex. -/
inductive LockEvent where
  | acqPBX
  | relPBX
  | acqTU (i : Nat)
  | relTU (i : Nat)
deriving DecidableEq, Repr

/-- Observable effects of an operation: socket writes `(fd, bytes)` in
program order, closed file descriptors, and mutex events. -/
structure Eff where
  writes : List (Int × String) := []
  closes : List Int := []
  locks : List LockEvent := []
deriving DecidableEq, Repr

def Eff.app (a b : Eff) : Eff :=
  { writes := a.writes ++ b.writes
    closes := a.closes ++ b.closes
    locks := a.locks ++ b.locks }

instance : Append Eff := ⟨Eff.app⟩

/-- `snprintf` into a `char[n]` buffer keeps at most `n - 1` characters. -/
def sn (n : Nat) (s : String) : String := s.take (n - 1)

def crlf : String := "\r\n"

/-- The `"ON HOOK %d\r\n"` format of tu.c. -/
def onHookMsg (n : Int) : String := "ON HOOK " ++ toString n ++ crlf

/-- The `"CONNECTED %d\r\n"` format of tu.c. -/
def connectedMsg (n : Int) : String := "CONNECTED " ++ toString n ++ crlf

/-- The `"CHAT %s\r\n"` format of tu_chat (exact-size heap buffer, no
truncation). -/
def chatMsg (msg : String) : String := "CHAT " ++ msg ++ crlf

/-- `notify_client` (tu.c): skips a negative fd, otherwise writes the
message.  (The close-on-failed-write branch depends on the environment;
the model assumes the `write` succeeds.) -/
def notify_client (fd : Int) (message : String) : Eff :=
  if fd < 0 then {} else { writes := [(fd, message)] }

/-- The `state_messages` array of `notify_client_of_tu_state` (tu.c),
including the underscore spellings. -/
def state_messages : TU_STATE → String
  | .TU_ON_HOOK => "ON_HOOK" ++ crlf
  | .TU_RINGING => "RINGING" ++ crlf
  | .TU_DIAL_TONE => "DIAL_TONE" ++ crlf
  | .TU_RING_BACK => "RING_BACK" ++ crlf
  | .TU_BUSY_SIGNAL => "BUSY_SIGNAL" ++ crlf
  | .TU_CONNECTED => "CONNECTED" ++ crlf
  | .TU_ERROR => "ERROR" ++ crlf

/-- `notify_client_of_tu_state` (tu.c): `ON HOOK %d` is built from the fd,
`CONNECTED %d` dereferences the peer (NULL peer is undefined behaviour),
and all other states use the `state_messages` strings.  The buffer is
`char[64]`. -/
def notify_client_of_tu_state (sys : Sys) (i : Nat) : Option Eff :=
  (lookupTU sys i).bind fun d =>
    match d.state with
    | .TU_ON_HOOK => some (notify_client d.fd (sn 64 (onHookMsg d.fd)))
    | .TU_CONNECTED =>
      d.peer.bind fun p =>
        (lookupTU sys p).bind fun pd =>
          some (notify_client d.fd (sn 64 (connectedMsg pd.ext)))
    | s => some (notify_client d.fd (sn 64 (state_messages s)))

/-- `safe_mutex_lock` (tu.c): both TU mutexes in identity order. -/
def safeLock (a b : Nat) : Eff :=
  if a < b then { locks := [.acqTU a, .acqTU b] } else { locks := [.acqTU b, .acqTU a] }

/-- `safe_mutex_unlock` (tu.c): releases in the same identity order. -/
def safeUnlock (a b : Nat) : Eff :=
  if a < b then { locks := [.relTU a, .relTU b] } else { locks := [.relTU b, .relTU a] }

/-- `tu_init` (tu.c): allocates a TU with `ref_count = 1`, state
`TU_ON_HOOK`, no peer, and `ext = fd` (the `ext = -1` initialization is
commented out in the source), then notifies the client with
`ON HOOK <fd>` from a `char[15]` buffer. -/
def tu_init (sys : Sys) (i : Nat) (fd : Int) : Sys × Eff :=
  let d : TUData := { fd := fd, ext := fd, ref_count := 1, state := .TU_ON_HOOK, peer := none }
  ((i, d) :: sys,
    Eff.app { locks := [.acqTU i] }
      (Eff.app (notify_client fd (sn 15 (onHookMsg fd))) { locks := [.relTU i] }))

/-- `tu_ref` (tu.c): increments the reference count (no lock is taken). -/
def tu_ref (sys : Sys) (i : Nat) : Option Sys :=
  (lookupTU sys i).bind fun d =>
    some (updateTU sys i { d with ref_count := d.ref_count + 1 })

/-- `tu_unref` (tu.c), fuelled to account for the recursive call in the
cleanup path.  Decrements the count under the TU's mutex; at zero it
resets a surviving peer to `TU_ON_HOOK`, notifies it, recursively unrefs
it, clears both pointers, closes the fd if non-negative, and frees the
TU.  (`tu->peer` is re-read at the `tu->peer->peer = NULL` statement; if
the recursive unref freed the peer, that access is a use-after-free and
the model yields `none`.) -/
def tu_unrefF : Nat → Sys → Option Nat → Option (Sys × Eff)
  | _, sys, none => some (sys, {})
  | 0, _, some _ => none
  | fuel + 1, sys, some i =>
    (lookupTU sys i).bind fun d =>
      let d1 := { d with ref_count := d.ref_count - 1 }
      let sys1 := updateTU sys i d1
      let eLock : Eff := { locks := [.acqTU i, .relTU i] }
      if d1.ref_count = 0 then
        match d1.peer with
        | some p =>
          (lookupTU sys1 p).bind fun pd =>
            let pd1 := { pd with state := .TU_ON_HOOK }
            let sys2 := updateTU sys1 p pd1
            let eNote := notify_client pd1.fd (sn 15 (onHookMsg pd1.fd))
            (tu_unrefF fuel sys2 (some p)).bind fun r =>
              (lookupTU r.1 p).bind fun pd2 =>
                let sys4 := updateTU r.1 p { pd2 with peer := none }
                (lookupTU sys4 i).bind fun d2 =>
                  let eClose : Eff := if 0 ≤ d2.fd then { closes := [d2.fd] } else {}
                  some (removeTU sys4 i,
                    Eff.app eLock (Eff.app { locks := [.acqTU p] }
                      (Eff.app eNote (Eff.app r.2 (Eff.app { locks := [.relTU p] } eClose)))))
        | none =>
          let eClose : Eff := if 0 ≤ d1.fd then { closes := [d1.fd] } else {}
          some (removeTU sys1 i, Eff.app eLock eClose)
      else
        some (sys1, eLock)

/-- `tu_unref` with enough fuel for any chain arising here. -/
def tu_unref (sys : Sys) (t : Option Nat) : Option (Sys × Eff) := tu_unrefF 8 sys t

/-- `tu_set_extension` (tu.c): fails if `ext` is already set (not `-1`),
otherwise assigns it and notifies the client with `ON HOOK <ext>`. -/
def tu_set_extension (sys : Sys) (i : Nat) (ext : Int) : Option (Sys × Eff × Int) :=
  (lookupTU sys i).bind fun d =>
    if d.ext ≠ -1 then some (sys, {}, -1)
    else
      let d1 := { d with ext := ext }
      some (updateTU sys i d1, notify_client d1.fd (sn 15 (onHookMsg d1.ext)), 0)

/-- `tu_dial` (tu.c).  A non-`TU_DIAL_TONE` originator re-emits its state;
a NULL target sends the originator to `TU_ERROR`; a self-dial, an engaged
or off-hook target gives `TU_BUSY_SIGNAL`; otherwise the two TUs are
peered, both reference counts incremented, and the pair moves to
`TU_RING_BACK` / `TU_RINGING`.  Field accesses re-read the heap in the
statement order of the C code. -/
def tu_dial (sys : Sys) (i : Nat) (target : Option Nat) : Option (Sys × Eff × Int) :=
  (lookupTU sys i).bind fun d =>
    let eA : Eff := { locks := [.acqTU i] }
    let eR : Eff := { locks := [.relTU i] }
    if d.state ≠ .TU_DIAL_TONE then
      (notify_client_of_tu_state sys i).bind fun eN =>
        some (sys, Eff.app eA (Eff.app eN eR), -1)
    else
      match target with
      | none =>
        some (updateTU sys i { d with state := .TU_ERROR },
          Eff.app eA (Eff.app (notify_client d.fd ("ERROR" ++ crlf)) eR), -1)
      | some t =>
        let eL2 : Eff := Eff.app eA (Eff.app eR (safeLock i t))
        (lookupTU sys t).bind fun td =>
          if i = t ∨ td.state ≠ .TU_ON_HOOK ∨ td.peer ≠ none then
            some (updateTU sys i { d with state := .TU_BUSY_SIGNAL },
              Eff.app eL2 (Eff.app (notify_client d.fd ("BUSY SIGNAL" ++ crlf)) (safeUnlock i t)),
              -1)
          else
            -- tu->peer = target; target->peer = tu
            let sys1 := updateTU sys i { d with peer := some t }
            (lookupTU sys1 t).bind fun td1 =>
              let sys2 := updateTU sys1 t { td1 with peer := some i }
              -- tu_ref(target); tu_ref(tu)
              (tu_ref sys2 t).bind fun sys3 =>
                (tu_ref sys3 i).bind fun sys4 =>
                  -- tu->state = TU_RING_BACK; target->state = TU_RINGING
                  (lookupTU sys4 i).bind fun d4 =>
                    let sys5 := updateTU sys4 i { d4 with state := .TU_RING_BACK }
                    (lookupTU sys5 t).bind fun t5 =>
                      let sys6 := updateTU sys5 t { t5 with state := .TU_RINGING }
                      (lookupTU sys6 i).bind fun d6 =>
                        (lookupTU sys6 t).bind fun t6 =>
                          some (sys6,
                            Eff.app eL2
                              (Eff.app (notify_client d6.fd ("RING BACK" ++ crlf))
                                (Eff.app (notify_client t6.fd ("RINGING" ++ crlf))
                                  (safeUnlock i t))), 0)

/-- `tu_pickup` (tu.c).  A TU in neither `TU_ON_HOOK` nor `TU_RINGING`
re-emits its state (returning 0); from `TU_ON_HOOK` it gets a dial tone;
from `TU_RINGING` it and its peer (NULL peer: undefined behaviour) both
become `TU_CONNECTED`, each notified with the other's extension. -/
def tu_pickup (sys : Sys) (i : Nat) : Option (Sys × Eff × Int) :=
  (lookupTU sys i).bind fun d =>
    let eA : Eff := { locks := [.acqTU i] }
    let eR : Eff := { locks := [.relTU i] }
    if d.state ≠ .TU_ON_HOOK ∧ d.state ≠ .TU_RINGING then
      (notify_client_of_tu_state sys i).bind fun eN =>
        some (sys, Eff.app eA (Eff.app eN eR), 0)
    else if d.state = .TU_ON_HOOK then
      some (updateTU sys i { d with state := .TU_DIAL_TONE },
        Eff.app eA (Eff.app (notify_client d.fd ("DIAL TONE" ++ crlf)) eR), 0)
    else
      -- d.state = TU_RINGING
      d.peer.bind fun p =>
        let sys1 := updateTU sys i { d with state := .TU_CONNECTED }
        (lookupTU sys1 p).bind fun pd =>
          let e1 := notify_client d.fd (sn 15 (connectedMsg pd.ext))
          let sys2 := updateTU sys1 p { pd with state := .TU_CONNECTED }
          (lookupTU sys2 i).bind fun d2 =>
            (lookupTU sys2 p).bind fun pd2 =>
              some (sys2,
                Eff.app eA (Eff.app { locks := [.acqTU p] }
                  (Eff.app e1 (Eff.app (notify_client pd2.fd (sn 15 (connectedMsg d2.ext)))
                    (Eff.app { locks := [.relTU p] } eR)))), 0)

/-- The code after the branches of `tu_hangup` (tu.c lines 470-475):
`tu_unref(tu->peer)` followed by `tu->peer = NULL`, with `tu->peer`
re-read from the heap.  If the unref freed `tu` itself the final store
would be a use-after-free (`none`). -/
def hangupTail (sys : Sys) (i : Nat) (pre post : Eff) : Option (Sys × Eff × Int) :=
  (lookupTU sys i).bind fun d =>
    (tu_unref sys d.peer).bind fun r =>
      (lookupTU r.1 i).bind fun d1 =>
        some (updateTU r.1 i { d1 with peer := none }, Eff.app pre (Eff.app r.2 post), 0)

/-- `tu_hangup` (tu.c).  From `TU_CONNECTED` or `TU_RINGING` the TU goes
on hook and its peer gets a dial tone; from `TU_RING_BACK` both go on
hook; from `TU_DIAL_TONE`, `TU_BUSY_SIGNAL` or `TU_ERROR` the TU goes on
hook alone; from `TU_ON_HOOK` the state is re-emitted and -1 returned.
All non-trivial branches then unref the peer once and clear `tu->peer`. -/
def tu_hangup (sys : Sys) (i : Nat) : Option (Sys × Eff × Int) :=
  (lookupTU sys i).bind fun d =>
    let eA : Eff := { locks := [.acqTU i] }
    let eR : Eff := { locks := [.relTU i] }
    if d.state = .TU_CONNECTED ∨ d.state = .TU_RINGING then
      d.peer.bind fun p =>
        let sys1 := updateTU sys i { d with state := .TU_ON_HOOK }
        let e1 := notify_client d.fd (sn 15 (onHookMsg d.fd))
        (lookupTU sys1 p).bind fun pd =>
          let sys2 := updateTU sys1 p { pd with state := .TU_DIAL_TONE }
          let e2 := notify_client pd.fd ("DIAL TONE" ++ crlf)
          -- tu->peer->peer = NULL (tu->peer re-read)
          (lookupTU sys2 i).bind fun d2 =>
            d2.peer.bind fun p2 =>
              (lookupTU sys2 p2).bind fun pd2 =>
                hangupTail (updateTU sys2 p2 { pd2 with peer := none }) i
                  (Eff.app eA (Eff.app { locks := [.acqTU p] }
                    (Eff.app e1 (Eff.app e2 { locks := [.relTU p] })))) eR
    else if d.state = .TU_RING_BACK then
      d.peer.bind fun p =>
        let sys1 := updateTU sys i { d with state := .TU_ON_HOOK }
        let e1 := notify_client d.fd (sn 15 (onHookMsg d.fd))
        (lookupTU sys1 p).bind fun pd =>
          let sys2 := updateTU sys1 p { pd with state := .TU_ON_HOOK }
          let e2 := notify_client pd.fd (sn 15 (onHookMsg pd.fd))
          (lookupTU sys2 i).bind fun d2 =>
            d2.peer.bind fun p2 =>
              (lookupTU sys2 p2).bind fun pd2 =>
                hangupTail (updateTU sys2 p2 { pd2 with peer := none }) i
                  (Eff.app eA (Eff.app { locks := [.acqTU p] }
                    (Eff.app e1 (Eff.app e2 { locks := [.relTU p] })))) eR
    else if d.state = .TU_DIAL_TONE ∨ d.state = .TU_BUSY_SIGNAL ∨ d.state = .TU_ERROR then
      let sys1 := updateTU sys i { d with state := .TU_ON_HOOK }
      let e1 := notify_client d.fd (sn 15 (onHookMsg d.fd))
      hangupTail sys1 i (Eff.app eA e1) eR
    else
      -- TU_ON_HOOK: no-op branch, re-emit state, return -1
      (notify_client_of_tu_state sys i).bind fun eN =>
        some (sys, Eff.app eA (Eff.app eN eR), -1)

/-- `tu_chat` (tu.c).  Not connected (or no peer): re-emit state, return
-1.  Otherwise the `CHAT` line is written with `notify_client(tu->peer->ext, ...)`,
i.e. the peer's extension number is used as the file descriptor, and the
sender is re-notified `CONNECTED <peer-ext>`.  The heap is unchanged. -/
def tu_chat (sys : Sys) (i : Nat) (msg : String) : Option (Sys × Eff × Int) :=
  (lookupTU sys i).bind fun d =>
    let eA : Eff := { locks := [.acqTU i] }
    let eR : Eff := { locks := [.relTU i] }
    if d.state ≠ .TU_CONNECTED ∨ d.peer = none then
      (notify_client_of_tu_state sys i).bind fun eN =>
        some (sys, Eff.app eA (Eff.app eN eR), -1)
    else
      d.peer.bind fun p =>
        (lookupTU sys p).bind fun pd =>
          some (sys,
            Eff.app eA (Eff.app eR (Eff.app (safeLock i p)
              (Eff.app (notify_client pd.ext (chatMsg msg))
                (Eff.app (notify_client d.fd (sn 15 (connectedMsg pd.ext)))
                  (safeUnlock i p))))), 0)

/-- Modelled from the spec: `pbx.h` is not among the source files; the
spec describes a fixed bound `N`, e.g. 1024, on the extension array. -/
def PBX_MAX_EXTENSIONS : Int := 1024

/-- The `extensions` array of `struct pbx` (pbx.c) as a partial map from
extension numbers to TU identities (NULL slots absent), plus
`active_tus`.  The mutex and condition variable are not data. -/
structure PBXData where
  extensions : List (Int × Nat) := []
  active_tus : Int := 0
deriving DecidableEq, Repr

def extLookup : List (Int × Nat) → Int → Option Nat
  | [], _ => none
  | (k, v) :: rest, e => if k = e then some v else extLookup rest e

def extRemove : List (Int × Nat) → Int → List (Int × Nat)
  | [], _ => []
  | (k, v) :: rest, e => if k = e then extRemove rest e else (k, v) :: extRemove rest e

/-- Store into a slot of the extensions array. -/
def extSet (l : List (Int × Nat)) (e : Int) (i : Nat) : List (Int × Nat) :=
  (e, i) :: extRemove l e

/-- `pbx_register` (pbx.c): bounds check, occupied check, then store the
TU, bump `active_tus`, call `tu_set_extension` (result ignored) and take
a reference. -/
def pbx_register (sys : Sys) (pbx : PBXData) (i : Nat) (ext : Int) :
    Option (Sys × PBXData × Eff × Int) :=
  if ext < 0 ∨ PBX_MAX_EXTENSIONS ≤ ext then some (sys, pbx, {}, -1)
  else
    let eA : Eff := { locks := [.acqPBX] }
    let eR : Eff := { locks := [.relPBX] }
    match extLookup pbx.extensions ext with
    | some _ => some (sys, pbx, Eff.app eA eR, -1)
    | none =>
      let pbx1 : PBXData :=
        { extensions := extSet pbx.extensions ext i, active_tus := pbx.active_tus + 1 }
      (tu_set_extension sys i ext).bind fun rs =>
        (tu_ref rs.1 i).bind fun sys2 =>
          some (sys2, pbx1, Eff.app eA (Eff.app rs.2.1 eR), 0)

/-- `pbx_unregister` (pbx.c): validates the slot, pins a reference,
clears the slot, decrements `active_tus`, hangs up, and releases the
registry reference and the pin — all under the PBX lock. -/
def pbx_unregister (sys : Sys) (pbx : PBXData) (i : Nat) :
    Option (Sys × PBXData × Eff × Int) :=
  let eA : Eff := { locks := [.acqPBX] }
  let eR : Eff := { locks := [.relPBX] }
  (lookupTU sys i).bind fun d =>
    if d.ext < 0 ∨ PBX_MAX_EXTENSIONS ≤ d.ext ∨ extLookup pbx.extensions d.ext ≠ some i then
      some (sys, pbx, Eff.app eA eR, -1)
    else
      (tu_ref sys i).bind fun sys1 =>
        let pbx1 : PBXData :=
          { extensions := extRemove pbx.extensions d.ext, active_tus := pbx.active_tus - 1 }
        (tu_hangup sys1 i).bind fun rh =>
          (tu_unref rh.1 (some i)).bind fun r1 =>
            (tu_unref r1.1 (some i)).bind fun r2 =>
              some (r2.1, pbx1,
                Eff.app eA (Eff.app rh.2.1 (Eff.app r1.2 (Eff.app r2.2 eR))), 0)

/-- `pbx_dial` (pbx.c): under the PBX lock, resolves the target slot.
An empty slot returns -1 without calling `tu_dial`; otherwise both TUs
are pinned, `tu_dial` runs (still under the PBX lock), and the pins are
released before unlocking. -/
def pbx_dial (sys : Sys) (pbx : PBXData) (i : Nat) (ext : Int) :
    Option (Sys × Eff × Int) :=
  if ext < 0 ∨ PBX_MAX_EXTENSIONS ≤ ext then some (sys, {}, -1)
  else
    let eA : Eff := { locks := [.acqPBX] }
    let eR : Eff := { locks := [.relPBX] }
    match extLookup pbx.extensions ext with
    | none => some (sys, Eff.app eA eR, -1)
    | some t =>
      (tu_ref sys i).bind fun sys1 =>
        (tu_ref sys1 t).bind fun sys2 =>
          (tu_dial sys2 i (some t)).bind fun rd =>
            (tu_unref rd.1 (some t)).bind fun r1 =>
              (tu_unref r1.1 (some i)).bind fun r2 =>
                some (r2.1,
                  Eff.app eA (Eff.app rd.2.1 (Eff.app r1.2 (Eff.app r2.2 eR))), rd.2.2)

/-- The connection setup of `pbx_client_service` (server.c): `tu_init`
on the accepted fd, then `pbx_register` under extension `fd`; on
registration failure the TU is unref'd and the fd closed.  The `Int`
result is 0 exactly when registration succeeded. -/
def pbx_client_service_setup (sys : Sys) (pbx : PBXData) (i : Nat) (fd : Int) :
    Option (Sys × PBXData × Eff × Int) :=
  let r0 := tu_init sys i fd
  (pbx_register r0.1 pbx i fd).bind fun rr =>
    if rr.2.2.2 < 0 then
      (tu_unref rr.1 (some i)).bind fun ru =>
        some (ru.1, rr.2.1, Eff.app r0.2 (Eff.app rr.2.2.1 (Eff.app ru.2 { closes := [fd] })), -1)
    else
      some (rr.1, rr.2.1, Eff.app r0.2 rr.2.2.1, 0)

/-- The teardown of `pbx_client_service` (server.c lines 103-105) after
the read loop sees EOF: `pbx_unregister`, `tu_unref`, and an
unconditional `close(fd)`. -/
def pbx_client_service_finish (sys : Sys) (pbx : PBXData) (i : Nat) (fd : Int) :
    Option (Sys × PBXData × Eff) :=
  (pbx_unregister sys pbx i).bind fun rr =>
    (tu_unref rr.1 (some i)).bind fun ru =>
      some (ru.1, rr.2.1, Eff.app rr.2.2.1 (Eff.app ru.2 { closes := [fd] }))

/-- A whole client connection that sends no commands: setup followed by
teardown. -/
def pbx_client_lifecycle (sys : Sys) (pbx : PBXData) (i : Nat) (fd : Int) :
    Option (Sys × PBXData × Eff) :=
  (pbx_client_service_setup sys pbx i fd).bind fun rs =>
    if rs.2.2.2 < 0 then some (rs.1, rs.2.1, rs.2.2.1)
    else
      (pbx_client_service_finish rs.1 rs.2.1 i fd).bind fun rf =>
        some (rf.1, rf.2.1, Eff.app rs.2.2.1 rf.2.2)

/-! ## Heap lemmas -/

theorem lookupTU_updateTU_self (sys : Sys) (i : Nat) (d v : TUData)
    (h : lookupTU sys i = some v) : lookupTU (updateTU sys i d) i = some d := by
  induction sys with
  | nil => simp [lookupTU] at h
  | cons kv rest ih =>
    obtain ⟨k, w⟩ := kv
    by_cases hk : k = i
    · simp [lookupTU, updateTU, hk]
    · simp only [lookupTU, updateTU, hk, if_false, if_neg hk] at h ⊢
      exact ih h

theorem lookupTU_updateTU_ne (sys : Sys) (i j : Nat) (d : TUData) (h : j ≠ i) :
    lookupTU (updateTU sys i d) j = lookupTU sys j := by
  induction sys with
  | nil => rfl
  | cons kv rest ih =>
    obtain ⟨k, w⟩ := kv
    by_cases hk : k = i
    · subst hk
      have hkj : k ≠ j := fun hkj => h (hkj ▸ rfl)
      simp [lookupTU, updateTU, hkj]
    · by_cases hj : k = j <;> simp [lookupTU, updateTU, hk, hj, h, ih]

theorem updateTU_absent (sys : Sys) (i : Nat) (d : TUData)
    (h : lookupTU sys i = none) : updateTU sys i d = sys := by
  induction sys with
  | nil => rfl
  | cons kv rest ih =>
    obtain ⟨k, w⟩ := kv
    by_cases hk : k = i
    · simp [lookupTU, hk] at h
    · simp only [lookupTU, if_neg hk] at h
      simp [updateTU, hk, ih h]

theorem lookupTU_removeTU (sys : Sys) (i j : Nat) :
    lookupTU (removeTU sys i) j = if i = j then none else lookupTU sys j := by
  induction sys with
  | nil => simp [removeTU, lookupTU]
  | cons kv rest ih =>
    obtain ⟨k, w⟩ := kv
    by_cases hij : i = j
    · subst hij
      by_cases hk : k = i
      · simpa [removeTU, hk] using ih
      · simpa [removeTU, lookupTU, hk] using ih
    · have hji : ¬ j = i := fun hh => hij hh.symm
      by_cases hk : k = i
      · have hkj : ¬ k = j := by rw [hk]; exact hij
        simp only [removeTU, if_pos hk, ih, if_neg hij, lookupTU, if_neg hkj]
      · by_cases hj : k = j
        · simp [removeTU, lookupTU, hk, hj, hij, hji]
        · simp only [removeTU, if_neg hk, lookupTU, if_neg hj, ih, if_neg hij]

/-! ## Spec-side definitions (for comparison with the code) -/

/-- The eight notification line encodings of specification §4.2, for a TU
whose registered extension is `ext`: `ON HOOK <ext>`, `RINGING`,
`DIAL TONE`, `RING BACK`, `BUSY SIGNAL`, `CONNECTED <peer-ext>`,
`ERROR` and `CHAT <text>`, each CRLF-terminated.  Transcribed from the
spec's words, to compare against the lines the code emits. -/
def isSpec42Line (ext : Int) (s : String) : Prop :=
  s = "ON HOOK " ++ toString ext ++ crlf ∨
  s = "RINGING" ++ crlf ∨
  s = "DIAL TONE" ++ crlf ∨
  s = "RING BACK" ++ crlf ∨
  s = "BUSY SIGNAL" ++ crlf ∨
  (∃ p : Int, s = "CONNECTED " ++ toString p ++ crlf) ∨
  s = "ERROR" ++ crlf ∨
  (∃ t : String, s = "CHAT " ++ t ++ crlf)

/-- Scan a lock trace: is some TU mutex acquired at a moment when the PBX
registry lock is held?  The Boolean argument says whether the PBX lock is
held at the start of the trace. -/
def anyTuAcqWhilePBXHeld : Bool → List LockEvent → Bool
  | _, [] => false
  | _, .acqPBX :: rest => anyTuAcqWhilePBXHeld true rest
  | _, .relPBX :: rest => anyTuAcqWhilePBXHeld false rest
  | held, .acqTU _ :: rest => held || anyTuAcqWhilePBXHeld held rest
  | held, .relTU _ :: rest => anyTuAcqWhilePBXHeld held rest

/-- Scan a lock trace: is some TU mutex acquired at a moment when the PBX
registry lock is NOT held? -/
def anyTuAcqWhilePBXFree : Bool → List LockEvent → Bool
  | _, [] => false
  | _, .acqPBX :: rest => anyTuAcqWhilePBXFree true rest
  | _, .relPBX :: rest => anyTuAcqWhilePBXFree false rest
  | held, .acqTU _ :: rest => !held || anyTuAcqWhilePBXFree held rest
  | held, .relTU _ :: rest => anyTuAcqWhilePBXFree held rest

/-! ## Concrete configurations used by the claim checks -/

/-- TU 1 (fd/ext 4) ringing, TU 2 (fd/ext 5) in ring-back: the state after
TU 2 dialed TU 1 (reference counts 3 = adapter + registry + peer). -/
def sysC1 : Sys :=
  [(1, { fd := 4, ext := 4, ref_count := 3, state := .TU_RINGING, peer := some 2 }),
   (2, { fd := 5, ext := 5, ref_count := 3, state := .TU_RING_BACK, peer := some 1 })]

/-- TU 1 (fd/ext 4) with a dial tone, TU 2 (fd/ext 5) on hook, both
registered (reference counts 2 = adapter + registry). -/
def sysC5 : Sys :=
  [(1, { fd := 4, ext := 4, ref_count := 2, state := .TU_DIAL_TONE, peer := none }),
   (2, { fd := 5, ext := 5, ref_count := 2, state := .TU_ON_HOOK, peer := none })]

/-- A registry holding only TU 1 at extension 4. -/
def pbxC2 : PBXData := { extensions := [(4, 1)], active_tus := 1 }

/-- A registry holding TU 1 at extension 4 and TU 2 at extension 5. -/
def pbxC4 : PBXData := { extensions := [(4, 1), (5, 2)], active_tus := 2 }

/-- Two connected TUs 1 (fd/ext 4) and 2 (fd/ext 5) peered with each
other. -/
def sysC10 : Sys :=
  [(1, { fd := 4, ext := 4, ref_count := 3, state := .TU_CONNECTED, peer := some 2 }),
   (2, { fd := 5, ext := 5, ref_count := 3, state := .TU_CONNECTED, peer := some 1 })]

/-- A single TU (fd/ext 4) with a dial tone. -/
def sysC3 : Sys :=
  [(1, { fd := 4, ext := 4, ref_count := 2, state := .TU_DIAL_TONE, peer := none })]

/-! ## Claim C1 -/

/-- Claim C1, counterexample: with TU 1 in `TU_RINGING` and its peer TU 2
in `TU_RING_BACK`, hanging up TU 1 leaves the peer in `TU_DIAL_TONE`
(notified `DIAL TONE`), not `TU_ON_HOOK` as the claim states. -/
theorem C1_hangup_ringing_counterexample :
    ((tu_hangup sysC1 1).bind fun r => (lookupTU r.1 2).map fun d => d.state) =
      some .TU_DIAL_TONE ∧
    TU_STATE.TU_DIAL_TONE ≠ TU_STATE.TU_ON_HOOK ∧
    ((tu_hangup sysC1 1).map fun r => r.2.1.writes) =
      some [((4 : Int), "ON HOOK 4" ++ crlf), ((5 : Int), "DIAL TONE" ++ crlf)] := by
  decide

/-! ## Claim C2 -/

/-- Claim C2, failing input: TU 1 (extension 4) has a dial tone and dials
extension 99, where no TU is registered.  `pbx_dial` returns -1 without
calling `tu_dial`: the heap is unchanged (TU 1 stays in `TU_DIAL_TONE`)
and no line at all — in particular no `ERROR` line — is written.  Had
`pbx_dial` passed the NULL target to `tu_dial` as tu.c's contract
describes, the TU would have moved to `TU_ERROR` with one `ERROR` line
(second conjunct). -/
theorem C2_dial_unregistered_no_error :
    pbx_dial sysC5 pbxC2 1 99 = some (sysC5, { locks := [.acqPBX, .relPBX] }, -1) ∧
    ((tu_dial sysC5 1 none).map fun r =>
        ((lookupTU r.1 1).map fun d => d.state, r.2.1.writes, r.2.2)) =
      some (some .TU_ERROR, [((4 : Int), "ERROR" ++ crlf)], -1) := by
  decide

/-! ## Claim C5 -/

/-- Claim C5, failing input: TU 1 (count 2) dials TU 2 (count 2), pairing
them with counts 3 and 3; TU 1 then hangs up.  The pairing is broken but
only the peer's reference is dropped: TU 2 returns to count 2 while TU 1
stays at 3 — it does not decrease back to its pre-pairing value. -/
theorem C5_refcount_leak :
    ((tu_dial sysC5 1 (some 2)).bind fun r =>
      (tu_hangup r.1 1).bind fun r2 =>
        (lookupTU r2.1 1).bind fun a =>
          (lookupTU r2.1 2).map fun b => (a.ref_count, b.ref_count)) =
      some (3, 2) ∧ (3 : Int) ≠ 2 := by
  decide

/-! ## Claim C6 -/

/-- Claim C6, failing input: one client on fd 4 connects (TU initialized
and registered) and disconnects without sending commands.  Its file
descriptor is closed twice: once by `tu_unref` when the count reaches
zero, and again by `pbx_client_service`'s unconditional `close(fd)`. -/
theorem C6_double_close :
    ((pbx_client_lifecycle [] {} 1 4).map fun r => r.2.2.closes) = some [4, 4] ∧
    ((pbx_client_lifecycle [] {} 1 4).map fun r => r.2.2.closes.length) = some 2 := by
  decide

/-! ## Claim C7 -/

/-- Claim C7, counterexample: a TU initialized on fd 4 has `ext = 4`, not
the unset sentinel `-1`, and the FIRST call to `tu_set_extension` already
fails with -1 (emitting nothing and changing nothing). -/
theorem C7_first_set_extension_fails :
    ((lookupTU (tu_init [] 1 4).1 1).map fun d => d.ext) = some 4 ∧
    ((4 : Int) ≠ -1) ∧
    tu_set_extension (tu_init [] 1 4).1 1 4 = some ((tu_init [] 1 4).1, {}, -1) := by
  decide

/-! ## Claim C4 -/

/-- Claim C4, counterexample: dialing extension 5 from TU 1 through the
PBX produces a lock trace in which TU mutexes are acquired while the PBX
registry lock is held — `pbx_dial` does not release the PBX lock before
calling into `tu_dial`. -/
theorem C4_pbx_lock_held_counterexample :
    ((pbx_dial sysC5 pbxC4 1 5).map fun r => anyTuAcqWhilePBXHeld false r.2.1.locks) =
      some true := by
  decide

/-! ## Claim C3 -/

/-- Claim C3, counterexample: a `pickup` command to a TU already in
`TU_DIAL_TONE` is a no-op that re-emits the state via
`notify_client_of_tu_state`, and the single line written is
`DIAL_TONE\r\n` — spelled with an underscore — which is not one of the
eight §4.2 encodings. -/
theorem C3_underscore_counterexample :
    ((tu_pickup sysC3 1).map fun r => r.2.1.writes) =
      some [((4 : Int), "DIAL_TONE" ++ crlf)] ∧
    ¬ isSpec42Line 4 ("DIAL_TONE" ++ crlf) := by
  refine ⟨by decide, ?_⟩
  intro h
  rcases h with h | h | h | h | h | ⟨p, h⟩ | h | ⟨t, h⟩
  · exact absurd h (by decide)
  · exact absurd h (by decide)
  · exact absurd h (by decide)
  · exact absurd h (by decide)
  · exact absurd h (by decide)
  · have hd := congrArg String.data h
    rw [String.data_append, String.data_append, String.data_append] at hd
    have h3 : (some 'D' : Option Char) = some 'C' := congrArg List.head? hd
    exact absurd h3 (by decide)
  · exact absurd h (by decide)
  · have hd := congrArg String.data h
    rw [String.data_append, String.data_append, String.data_append] at hd
    have h3 : (some 'D' : Option Char) = some 'C' := congrArg List.head? hd
    exact absurd h3 (by decide)

/-! ## Unref characterization lemmas -/

/-- A non-final `tu_unref` only decrements the count. -/
theorem tu_unrefF_dec (f : Nat) (sys : Sys) (i : Nat) (d : TUData)
    (h : lookupTU sys i = some d) (hz : d.ref_count - 1 ≠ 0) :
    tu_unrefF (f + 1) sys (some i) =
      some (updateTU sys i { d with ref_count := d.ref_count - 1 },
        { locks := [.acqTU i, .relTU i] }) := by
  simp only [tu_unrefF, h, Option.some_bind, if_neg hz]

/-- A final `tu_unref` of a TU with no peer frees it, closing a
non-negative fd. -/
theorem tu_unrefF_zero_noPeer (f : Nat) (sys : Sys) (i : Nat) (d : TUData)
    (h : lookupTU sys i = some d) (hz : d.ref_count - 1 = 0) (hp : d.peer = none) :
    tu_unrefF (f + 1) sys (some i) =
      some (removeTU (updateTU sys i { d with ref_count := d.ref_count - 1 }) i,
        Eff.app { locks := [.acqTU i, .relTU i] }
          (if 0 ≤ d.fd then { closes := [d.fd] } else {})) := by
  simp only [tu_unrefF, h, Option.some_bind, if_pos hz, hp]

/-- A successful final `tu_unref` always frees the TU. -/
theorem tu_unrefF_zero_removes (f : Nat) (sys : Sys) (i : Nat) (d : TUData) (r : Sys × Eff)
    (hres : tu_unrefF f sys (some i) = some r)
    (h : lookupTU sys i = some d) (hz : d.ref_count - 1 = 0) :
    lookupTU r.1 i = none := by
  cases f with
  | zero => simp [tu_unrefF] at hres
  | succ f =>
    simp only [tu_unrefF, h, Option.some_bind, if_pos hz] at hres
    cases hp : d.peer with
    | none =>
      rw [hp] at hres
      cases hres
      simp [lookupTU_removeTU]
    | some p =>
      rw [hp] at hres
      rw [Option.bind_eq_some] at hres
      obtain ⟨pd, hpd, hres⟩ := hres
      rw [Option.bind_eq_some] at hres
      obtain ⟨rr, hrr, hres⟩ := hres
      rw [Option.bind_eq_some] at hres
      obtain ⟨pd2, hpd2, hres⟩ := hres
      rw [Option.bind_eq_some] at hres
      obtain ⟨d2, hd2, hres⟩ := hres
      cases hres
      simp [lookupTU_removeTU]

/-! ## Effect projection helpers -/

@[simp] theorem Eff_app_writes (a b : Eff) : (Eff.app a b).writes = a.writes ++ b.writes := rfl

@[simp] theorem Eff_app_closes (a b : Eff) : (Eff.app a b).closes = a.closes ++ b.closes := rfl

@[simp] theorem Eff_app_locks (a b : Eff) : (Eff.app a b).locks = a.locks ++ b.locks := rfl

@[simp] theorem writes_ite_closes (c : Prop) [Decidable c] (l : List Int) :
    (if c then ({ closes := l } : Eff) else {}).writes = [] := by
  split <;> rfl

@[simp] theorem safeLock_writes (a b : Nat) : (safeLock a b).writes = [] := by
  unfold safeLock; split <;> rfl

@[simp] theorem safeUnlock_writes (a b : Nat) : (safeUnlock a b).writes = [] := by
  unfold safeUnlock; split <;> rfl

/-! ## Unref wrappers at the standard fuel -/

theorem tu_unref_dec (sys : Sys) (i : Nat) (d : TUData)
    (h : lookupTU sys i = some d) (hz : d.ref_count - 1 ≠ 0) :
    tu_unref sys (some i) =
      some (updateTU sys i { d with ref_count := d.ref_count - 1 },
        { locks := [.acqTU i, .relTU i] }) :=
  tu_unrefF_dec 7 sys i d h hz

theorem tu_unref_zero_noPeer (sys : Sys) (i : Nat) (d : TUData)
    (h : lookupTU sys i = some d) (hz : d.ref_count - 1 = 0) (hp : d.peer = none) :
    tu_unref sys (some i) =
      some (removeTU (updateTU sys i { d with ref_count := d.ref_count - 1 }) i,
        Eff.app { locks := [.acqTU i, .relTU i] }
          (if 0 ≤ d.fd then { closes := [d.fd] } else {})) :=
  tu_unrefF_zero_noPeer 7 sys i d h hz hp

/-! ## Hangup characterization: two-party branches -/

/-- `tu_hangup` from `TU_CONNECTED` or `TU_RINGING` with a distinct peer:
the TU goes on hook with its pointer cleared, the peer moves to
`TU_DIAL_TONE` with its pointer cleared and one reference dropped (being
freed if that was the last one), every other TU is untouched, and the
writes are `ON HOOK <fd>` to the TU and `DIAL TONE` to the peer. -/
theorem tu_hangup_pair (sys : Sys) (a b : Nat) (da db : TUData)
    (hA : lookupTU sys a = some da)
    (hst : da.state = .TU_CONNECTED ∨ da.state = .TU_RINGING)
    (hp : da.peer = some b) (hab : a ≠ b)
    (hB : lookupTU sys b = some db) :
    ∃ sys2 eff,
      tu_hangup sys a = some (sys2, eff, 0) ∧
      lookupTU sys2 a = some { da with state := .TU_ON_HOOK, peer := none } ∧
      (if db.ref_count - 1 = 0 then lookupTU sys2 b = none
       else lookupTU sys2 b =
        some { db with ref_count := db.ref_count - 1, state := .TU_DIAL_TONE, peer := none }) ∧
      (∀ j, j ≠ a → j ≠ b → lookupTU sys2 j = lookupTU sys j) ∧
      eff.writes = (notify_client da.fd (sn 15 (onHookMsg da.fd))).writes ++
        (notify_client db.fd ("DIAL TONE" ++ crlf)).writes := by
  have hba : b ≠ a := fun hh => hab hh.symm
  simp only [tu_hangup, hA, Option.some_bind, if_pos hst, hp]
  have h1b : lookupTU (updateTU sys a { da with state := .TU_ON_HOOK, peer := some b }) b =
      some db :=
    (lookupTU_updateTU_ne sys a b _ hba).trans hB
  rw [h1b]
  simp only [Option.some_bind]
  have h2a : lookupTU (updateTU (updateTU sys a { da with state := .TU_ON_HOOK, peer := some b })
      b { db with state := .TU_DIAL_TONE }) a =
      some { da with state := .TU_ON_HOOK, peer := some b } :=
    (lookupTU_updateTU_ne _ b a _ hab).trans
      (lookupTU_updateTU_self sys a _ da hA)
  rw [h2a]
  simp only [Option.some_bind]
  have h2b : lookupTU (updateTU (updateTU sys a { da with state := .TU_ON_HOOK, peer := some b })
      b { db with state := .TU_DIAL_TONE }) b = some { db with state := .TU_DIAL_TONE } :=
    lookupTU_updateTU_self _ b _ _ h1b
  rw [h2b]
  simp only [Option.some_bind, hangupTail]
  have h3a : lookupTU (updateTU (updateTU (updateTU sys a
      { da with state := .TU_ON_HOOK, peer := some b })
      b { db with state := .TU_DIAL_TONE }) b { db with state := .TU_DIAL_TONE, peer := none }) a =
      some { da with state := .TU_ON_HOOK, peer := some b } :=
    (lookupTU_updateTU_ne _ b a _ hab).trans h2a
  rw [h3a]
  simp only [Option.some_bind]
  have h3b : lookupTU (updateTU (updateTU (updateTU sys a
      { da with state := .TU_ON_HOOK, peer := some b })
      b { db with state := .TU_DIAL_TONE }) b { db with state := .TU_DIAL_TONE, peer := none }) b =
      some { db with state := .TU_DIAL_TONE, peer := none } :=
    lookupTU_updateTU_self _ b _ _ h2b
  by_cases hz : db.ref_count - 1 = 0
  · rw [tu_unref_zero_noPeer _ b { db with state := .TU_DIAL_TONE, peer := none } h3b hz rfl]
    simp only [Option.some_bind]
    have h4a : lookupTU (removeTU (updateTU (updateTU (updateTU (updateTU sys a
        { da with state := .TU_ON_HOOK, peer := some b })
        b { db with state := .TU_DIAL_TONE }) b { db with state := .TU_DIAL_TONE, peer := none })
        b { db with ref_count := db.ref_count - 1, state := .TU_DIAL_TONE, peer := none }) b) a =
        some { da with state := .TU_ON_HOOK, peer := some b } := by
      rw [lookupTU_removeTU, if_neg hba]
      exact (lookupTU_updateTU_ne _ b a _ hab).trans h3a
    rw [h4a]
    simp only [Option.some_bind]
    refine ⟨_, _, rfl, ?_, ?_, ?_, ?_⟩
    · exact lookupTU_updateTU_self _ a _ _ h4a
    · rw [if_pos hz, lookupTU_updateTU_ne _ a b _ hba, lookupTU_removeTU, if_pos rfl]
    · intro j hja hjb
      have hjb2 : ¬ b = j := fun hh => hjb hh.symm
      rw [lookupTU_updateTU_ne _ a j _ hja, lookupTU_removeTU, if_neg hjb2,
        lookupTU_updateTU_ne _ b j _ hjb, lookupTU_updateTU_ne _ b j _ hjb,
        lookupTU_updateTU_ne _ b j _ hjb, lookupTU_updateTU_ne _ a j _ hja]
    · simp
  · rw [tu_unref_dec _ b { db with state := .TU_DIAL_TONE, peer := none } h3b hz]
    simp only [Option.some_bind]
    have h4a : lookupTU (updateTU (updateTU (updateTU (updateTU sys a
        { da with state := .TU_ON_HOOK, peer := some b })
        b { db with state := .TU_DIAL_TONE }) b { db with state := .TU_DIAL_TONE, peer := none })
        b { db with ref_count := db.ref_count - 1, state := .TU_DIAL_TONE, peer := none }) a =
        some { da with state := .TU_ON_HOOK, peer := some b } :=
      (lookupTU_updateTU_ne _ b a _ hab).trans h3a
    rw [h4a]
    simp only [Option.some_bind]
    refine ⟨_, _, rfl, ?_, ?_, ?_, ?_⟩
    · exact lookupTU_updateTU_self _ a _ _ h4a
    · rw [if_neg hz, lookupTU_updateTU_ne _ a b _ hba]
      exact lookupTU_updateTU_self _ b _ _ h3b
    · intro j hja hjb
      rw [lookupTU_updateTU_ne _ a j _ hja, lookupTU_updateTU_ne _ b j _ hjb,
        lookupTU_updateTU_ne _ b j _ hjb, lookupTU_updateTU_ne _ b j _ hjb,
        lookupTU_updateTU_ne _ a j _ hja]
    · simp

theorem tu_unref_none (sys : Sys) : tu_unref sys none = some (sys, {}) := rfl

/-- `tu_hangup` from `TU_RING_BACK` with a distinct peer: both TUs go on
hook with their pointers cleared, the peer drops one reference (being
freed iff it was the last), and both clients get `ON HOOK` lines. -/
theorem tu_hangup_ringback_pair (sys : Sys) (a b : Nat) (da db : TUData)
    (hA : lookupTU sys a = some da)
    (hst : da.state = .TU_RING_BACK)
    (hp : da.peer = some b) (hab : a ≠ b)
    (hB : lookupTU sys b = some db) :
    ∃ sys2 eff,
      tu_hangup sys a = some (sys2, eff, 0) ∧
      lookupTU sys2 a = some { da with state := .TU_ON_HOOK, peer := none } ∧
      (if db.ref_count - 1 = 0 then lookupTU sys2 b = none
       else lookupTU sys2 b =
        some { db with ref_count := db.ref_count - 1, state := .TU_ON_HOOK, peer := none }) ∧
      (∀ j, j ≠ a → j ≠ b → lookupTU sys2 j = lookupTU sys j) ∧
      eff.writes = (notify_client da.fd (sn 15 (onHookMsg da.fd))).writes ++
        (notify_client db.fd (sn 15 (onHookMsg db.fd))).writes := by
  have hba : b ≠ a := fun hh => hab hh.symm
  have hno1 : ¬ (da.state = .TU_CONNECTED ∨ da.state = .TU_RINGING) := by rw [hst]; decide
  simp only [tu_hangup, hA, Option.some_bind, if_neg hno1, if_pos hst, hp]
  have h1b : lookupTU (updateTU sys a { da with state := .TU_ON_HOOK, peer := some b }) b =
      some db :=
    (lookupTU_updateTU_ne sys a b _ hba).trans hB
  rw [h1b]
  simp only [Option.some_bind]
  have h2a : lookupTU (updateTU (updateTU sys a { da with state := .TU_ON_HOOK, peer := some b })
      b { db with state := .TU_ON_HOOK }) a =
      some { da with state := .TU_ON_HOOK, peer := some b } :=
    (lookupTU_updateTU_ne _ b a _ hab).trans
      (lookupTU_updateTU_self sys a _ da hA)
  rw [h2a]
  simp only [Option.some_bind]
  have h2b : lookupTU (updateTU (updateTU sys a { da with state := .TU_ON_HOOK, peer := some b })
      b { db with state := .TU_ON_HOOK }) b = some { db with state := .TU_ON_HOOK } :=
    lookupTU_updateTU_self _ b _ _ h1b
  rw [h2b]
  simp only [Option.some_bind, hangupTail]
  have h3a : lookupTU (updateTU (updateTU (updateTU sys a
      { da with state := .TU_ON_HOOK, peer := some b })
      b { db with state := .TU_ON_HOOK }) b { db with state := .TU_ON_HOOK, peer := none }) a =
      some { da with state := .TU_ON_HOOK, peer := some b } :=
    (lookupTU_updateTU_ne _ b a _ hab).trans h2a
  rw [h3a]
  simp only [Option.some_bind]
  have h3b : lookupTU (updateTU (updateTU (updateTU sys a
      { da with state := .TU_ON_HOOK, peer := some b })
      b { db with state := .TU_ON_HOOK }) b { db with state := .TU_ON_HOOK, peer := none }) b =
      some { db with state := .TU_ON_HOOK, peer := none } :=
    lookupTU_updateTU_self _ b _ _ h2b
  by_cases hz : db.ref_count - 1 = 0
  · rw [tu_unref_zero_noPeer _ b { db with state := .TU_ON_HOOK, peer := none } h3b hz rfl]
    simp only [Option.some_bind]
    have h4a : lookupTU (removeTU (updateTU (updateTU (updateTU (updateTU sys a
        { da with state := .TU_ON_HOOK, peer := some b })
        b { db with state := .TU_ON_HOOK }) b { db with state := .TU_ON_HOOK, peer := none })
        b { db with ref_count := db.ref_count - 1, state := .TU_ON_HOOK, peer := none }) b) a =
        some { da with state := .TU_ON_HOOK, peer := some b } := by
      rw [lookupTU_removeTU, if_neg hba]
      exact (lookupTU_updateTU_ne _ b a _ hab).trans h3a
    rw [h4a]
    simp only [Option.some_bind]
    refine ⟨_, _, rfl, ?_, ?_, ?_, ?_⟩
    · exact lookupTU_updateTU_self _ a _ _ h4a
    · rw [if_pos hz, lookupTU_updateTU_ne _ a b _ hba, lookupTU_removeTU, if_pos rfl]
    · intro j hja hjb
      have hjb2 : ¬ b = j := fun hh => hjb hh.symm
      rw [lookupTU_updateTU_ne _ a j _ hja, lookupTU_removeTU, if_neg hjb2,
        lookupTU_updateTU_ne _ b j _ hjb, lookupTU_updateTU_ne _ b j _ hjb,
        lookupTU_updateTU_ne _ b j _ hjb, lookupTU_updateTU_ne _ a j _ hja]
    · simp
  · rw [tu_unref_dec _ b { db with state := .TU_ON_HOOK, peer := none } h3b hz]
    simp only [Option.some_bind]
    have h4a : lookupTU (updateTU (updateTU (updateTU (updateTU sys a
        { da with state := .TU_ON_HOOK, peer := some b })
        b { db with state := .TU_ON_HOOK }) b { db with state := .TU_ON_HOOK, peer := none })
        b { db with ref_count := db.ref_count - 1, state := .TU_ON_HOOK, peer := none }) a =
        some { da with state := .TU_ON_HOOK, peer := some b } :=
      (lookupTU_updateTU_ne _ b a _ hab).trans h3a
    rw [h4a]
    simp only [Option.some_bind]
    refine ⟨_, _, rfl, ?_, ?_, ?_, ?_⟩
    · exact lookupTU_updateTU_self _ a _ _ h4a
    · rw [if_neg hz, lookupTU_updateTU_ne _ a b _ hba]
      exact lookupTU_updateTU_self _ b _ _ h3b
    · intro j hja hjb
      rw [lookupTU_updateTU_ne _ a j _ hja, lookupTU_updateTU_ne _ b j _ hjb,
        lookupTU_updateTU_ne _ b j _ hjb, lookupTU_updateTU_ne _ b j _ hjb,
        lookupTU_updateTU_ne _ a j _ hja]
    · simp

/-- `tu_hangup` from `TU_CONNECTED`/`TU_RINGING` when the TU is its own
peer: the TU ends in `TU_DIAL_TONE` with the pointer cleared (the
`tu->peer` re-read after `tu->peer->peer = NULL` sees NULL, so no unref
happens). -/
theorem tu_hangup_pair_self (sys : Sys) (a : Nat) (da : TUData)
    (hA : lookupTU sys a = some da)
    (hst : da.state = .TU_CONNECTED ∨ da.state = .TU_RINGING)
    (hp : da.peer = some a) :
    ∃ sys2 eff,
      tu_hangup sys a = some (sys2, eff, 0) ∧
      lookupTU sys2 a = some { da with state := .TU_DIAL_TONE, peer := none } ∧
      (∀ j, j ≠ a → lookupTU sys2 j = lookupTU sys j) := by
  simp only [tu_hangup, hA, Option.some_bind, if_pos hst, hp]
  have h1 : lookupTU (updateTU sys a { da with state := .TU_ON_HOOK, peer := some a }) a =
      some { da with state := .TU_ON_HOOK, peer := some a } :=
    lookupTU_updateTU_self sys a _ da hA
  rw [h1]
  simp only [Option.some_bind]
  have h2 : lookupTU (updateTU (updateTU sys a { da with state := .TU_ON_HOOK, peer := some a })
      a { da with state := .TU_DIAL_TONE, peer := some a }) a =
      some { da with state := .TU_DIAL_TONE, peer := some a } :=
    lookupTU_updateTU_self _ a _ _ h1
  rw [h2]
  simp only [Option.some_bind]
  rw [h2]
  simp only [Option.some_bind, hangupTail]
  have h3 : lookupTU (updateTU (updateTU (updateTU sys a
      { da with state := .TU_ON_HOOK, peer := some a })
      a { da with state := .TU_DIAL_TONE, peer := some a })
      a { da with state := .TU_DIAL_TONE, peer := none }) a =
      some { da with state := .TU_DIAL_TONE, peer := none } :=
    lookupTU_updateTU_self _ a _ _ h2
  rw [h3]
  simp only [Option.some_bind, tu_unref_none, h3]
  refine ⟨_, _, rfl, ?_, ?_⟩
  · exact lookupTU_updateTU_self _ a _ _ h3
  · intro j hja
    rw [lookupTU_updateTU_ne _ a j _ hja, lookupTU_updateTU_ne _ a j _ hja,
      lookupTU_updateTU_ne _ a j _ hja, lookupTU_updateTU_ne _ a j _ hja]

/-- `tu_hangup` from `TU_RING_BACK` when the TU is its own peer: it ends
in `TU_ON_HOOK` with the pointer cleared. -/
theorem tu_hangup_ringback_self (sys : Sys) (a : Nat) (da : TUData)
    (hA : lookupTU sys a = some da)
    (hst : da.state = .TU_RING_BACK)
    (hp : da.peer = some a) :
    ∃ sys2 eff,
      tu_hangup sys a = some (sys2, eff, 0) ∧
      lookupTU sys2 a = some { da with state := .TU_ON_HOOK, peer := none } ∧
      (∀ j, j ≠ a → lookupTU sys2 j = lookupTU sys j) := by
  have hno1 : ¬ (da.state = .TU_CONNECTED ∨ da.state = .TU_RINGING) := by rw [hst]; decide
  simp only [tu_hangup, hA, Option.some_bind, if_neg hno1, if_pos hst, hp]
  have h1 : lookupTU (updateTU sys a { da with state := .TU_ON_HOOK, peer := some a }) a =
      some { da with state := .TU_ON_HOOK, peer := some a } :=
    lookupTU_updateTU_self sys a _ da hA
  rw [h1]
  simp only [Option.some_bind]
  have h2 : lookupTU (updateTU (updateTU sys a { da with state := .TU_ON_HOOK, peer := some a })
      a { da with state := .TU_ON_HOOK, peer := some a }) a =
      some { da with state := .TU_ON_HOOK, peer := some a } :=
    lookupTU_updateTU_self _ a _ _ h1
  rw [h2]
  simp only [Option.some_bind]
  rw [h2]
  simp only [Option.some_bind, hangupTail]
  have h3 : lookupTU (updateTU (updateTU (updateTU sys a
      { da with state := .TU_ON_HOOK, peer := some a })
      a { da with state := .TU_ON_HOOK, peer := some a })
      a { da with state := .TU_ON_HOOK, peer := none }) a =
      some { da with state := .TU_ON_HOOK, peer := none } :=
    lookupTU_updateTU_self _ a _ _ h2
  rw [h3]
  simp only [Option.some_bind, tu_unref_none, h3]
  refine ⟨_, _, rfl, ?_, ?_⟩
  · exact lookupTU_updateTU_self _ a _ _ h3
  · intro j hja
    rw [lookupTU_updateTU_ne _ a j _ hja, lookupTU_updateTU_ne _ a j _ hja,
      lookupTU_updateTU_ne _ a j _ hja, lookupTU_updateTU_ne _ a j _ hja]

/-- `tu_hangup` from `TU_DIAL_TONE`, `TU_BUSY_SIGNAL` or `TU_ERROR` with
no peer: the TU alone goes on hook and is notified `ON HOOK <fd>`. -/
theorem tu_hangup_solo (sys : Sys) (a : Nat) (da : TUData)
    (hA : lookupTU sys a = some da)
    (hst : da.state = .TU_DIAL_TONE ∨ da.state = .TU_BUSY_SIGNAL ∨ da.state = .TU_ERROR)
    (hp : da.peer = none) :
    ∃ sys2 eff,
      tu_hangup sys a = some (sys2, eff, 0) ∧
      lookupTU sys2 a = some { da with state := .TU_ON_HOOK, peer := none } ∧
      (∀ j, j ≠ a → lookupTU sys2 j = lookupTU sys j) ∧
      eff.writes = (notify_client da.fd (sn 15 (onHookMsg da.fd))).writes := by
  have hno1 : ¬ (da.state = .TU_CONNECTED ∨ da.state = .TU_RINGING) := by
    rcases hst with h | h | h <;> rw [h] <;> decide
  have hno2 : ¬ da.state = .TU_RING_BACK := by
    rcases hst with h | h | h <;> rw [h] <;> decide
  simp only [tu_hangup, hA, Option.some_bind, if_neg hno1, if_neg hno2, if_pos hst, hp,
    hangupTail]
  have h1 : lookupTU (updateTU sys a { da with state := .TU_ON_HOOK, peer := none }) a =
      some { da with state := .TU_ON_HOOK, peer := none } :=
    lookupTU_updateTU_self sys a _ da hA
  rw [h1]
  simp only [Option.some_bind, tu_unref_none, h1]
  refine ⟨_, _, rfl, ?_, ?_, ?_⟩
  · exact lookupTU_updateTU_self _ a _ _ h1
  · intro j hja
    rw [lookupTU_updateTU_ne _ a j _ hja, lookupTU_updateTU_ne _ a j _ hja]
  · simp

/-- `tu_hangup` of a TU already `TU_ON_HOOK`: a no-op that re-emits the
state (an `ON HOOK <fd>` line) and returns -1. -/
theorem tu_hangup_onhook (sys : Sys) (a : Nat) (da : TUData)
    (hA : lookupTU sys a = some da)
    (hst : da.state = .TU_ON_HOOK) :
    tu_hangup sys a = some (sys,
      Eff.app { locks := [.acqTU a] }
        (Eff.app (notify_client da.fd (sn 64 (onHookMsg da.fd))) { locks := [.relTU a] }), -1) := by
  have hno1 : ¬ (da.state = .TU_CONNECTED ∨ da.state = .TU_RINGING) := by rw [hst]; decide
  have hno2 : ¬ da.state = .TU_RING_BACK := by rw [hst]; decide
  have hno3 : ¬ (da.state = .TU_DIAL_TONE ∨ da.state = .TU_BUSY_SIGNAL ∨
      da.state = .TU_ERROR) := by rw [hst]; decide
  simp only [tu_hangup, hA, Option.some_bind, if_neg hno1, if_neg hno2, if_neg hno3,
    notify_client_of_tu_state]
  simp only [hst, Option.some_bind]

/-! ## Pickup characterization -/

/-- `tu_pickup` from `TU_ON_HOOK`: dial tone. -/
theorem tu_pickup_onhook (sys : Sys) (a : Nat) (da : TUData)
    (hA : lookupTU sys a = some da) (hst : da.state = .TU_ON_HOOK) :
    tu_pickup sys a = some (updateTU sys a { da with state := .TU_DIAL_TONE },
      Eff.app { locks := [.acqTU a] }
        (Eff.app (notify_client da.fd ("DIAL TONE" ++ crlf)) { locks := [.relTU a] }), 0) := by
  have hno : ¬ (da.state ≠ .TU_ON_HOOK ∧ da.state ≠ .TU_RINGING) := by rw [hst]; decide
  simp only [tu_pickup, hA, Option.some_bind, if_neg hno, if_pos hst]

/-- `tu_pickup` in a state other than `TU_ON_HOOK`/`TU_RINGING`: a no-op
that re-emits the current state and returns 0. -/
theorem tu_pickup_noop (sys : Sys) (a : Nat) (da : TUData) (e : Eff)
    (hA : lookupTU sys a = some da)
    (hs1 : da.state ≠ .TU_ON_HOOK) (hs2 : da.state ≠ .TU_RINGING)
    (hN : notify_client_of_tu_state sys a = some e) :
    tu_pickup sys a = some (sys,
      Eff.app { locks := [.acqTU a] } (Eff.app e { locks := [.relTU a] }), 0) := by
  simp only [tu_pickup, hA, Option.some_bind, if_pos (And.intro hs1 hs2), hN,
    Option.some_bind]

/-- `tu_pickup` from `TU_RINGING` with a distinct peer: both TUs become
`TU_CONNECTED` and each is notified with the other's extension. -/
theorem tu_pickup_ringing (sys : Sys) (a b : Nat) (da db : TUData)
    (hA : lookupTU sys a = some da) (hst : da.state = .TU_RINGING)
    (hp : da.peer = some b) (hab : a ≠ b) (hB : lookupTU sys b = some db) :
    ∃ sys2 eff,
      tu_pickup sys a = some (sys2, eff, 0) ∧
      lookupTU sys2 a = some { da with state := .TU_CONNECTED, peer := some b } ∧
      lookupTU sys2 b = some { db with state := .TU_CONNECTED } ∧
      (∀ j, j ≠ a → j ≠ b → lookupTU sys2 j = lookupTU sys j) ∧
      eff.writes = (notify_client da.fd (sn 15 (connectedMsg db.ext))).writes ++
        (notify_client db.fd (sn 15 (connectedMsg da.ext))).writes := by
  have hba : b ≠ a := fun hh => hab hh.symm
  have hno : ¬ (da.state ≠ .TU_ON_HOOK ∧ da.state ≠ .TU_RINGING) := by rw [hst]; decide
  have hno2 : ¬ da.state = .TU_ON_HOOK := by rw [hst]; decide
  simp only [tu_pickup, hA, Option.some_bind, if_neg hno, if_neg hno2, hp]
  have h1b : lookupTU (updateTU sys a { da with state := .TU_CONNECTED, peer := some b }) b =
      some db := (lookupTU_updateTU_ne sys a b _ hba).trans hB
  rw [h1b]
  simp only [Option.some_bind]
  have h2a : lookupTU (updateTU (updateTU sys a
      { da with state := .TU_CONNECTED, peer := some b })
      b { db with state := .TU_CONNECTED }) a =
      some { da with state := .TU_CONNECTED, peer := some b } :=
    (lookupTU_updateTU_ne _ b a _ hab).trans (lookupTU_updateTU_self sys a _ da hA)
  rw [h2a]
  simp only [Option.some_bind]
  have h2b : lookupTU (updateTU (updateTU sys a
      { da with state := .TU_CONNECTED, peer := some b })
      b { db with state := .TU_CONNECTED }) b = some { db with state := .TU_CONNECTED } :=
    lookupTU_updateTU_self _ b _ _ h1b
  rw [h2b]
  simp only [Option.some_bind]
  refine ⟨_, _, rfl, h2a, h2b, ?_, ?_⟩
  · intro j hja hjb
    rw [lookupTU_updateTU_ne _ b j _ hjb, lookupTU_updateTU_ne _ a j _ hja]
  · simp

/-- `tu_pickup` from `TU_RINGING` when the TU is its own peer: it becomes
`TU_CONNECTED` (still pointing at itself). -/
theorem tu_pickup_ringing_self (sys : Sys) (a : Nat) (da : TUData)
    (hA : lookupTU sys a = some da) (hst : da.state = .TU_RINGING)
    (hp : da.peer = some a) :
    ∃ sys2 eff,
      tu_pickup sys a = some (sys2, eff, 0) ∧
      lookupTU sys2 a = some { da with state := .TU_CONNECTED, peer := some a } ∧
      (∀ j, j ≠ a → lookupTU sys2 j = lookupTU sys j) := by
  have hno : ¬ (da.state ≠ .TU_ON_HOOK ∧ da.state ≠ .TU_RINGING) := by rw [hst]; decide
  have hno2 : ¬ da.state = .TU_ON_HOOK := by rw [hst]; decide
  simp only [tu_pickup, hA, Option.some_bind, if_neg hno, if_neg hno2, hp]
  have h1 : lookupTU (updateTU sys a { da with state := .TU_CONNECTED, peer := some a }) a =
      some { da with state := .TU_CONNECTED, peer := some a } :=
    lookupTU_updateTU_self sys a _ da hA
  rw [h1]
  simp only [Option.some_bind]
  have h2 : lookupTU (updateTU (updateTU sys a
      { da with state := .TU_CONNECTED, peer := some a })
      a { da with state := .TU_CONNECTED, peer := some a }) a =
      some { da with state := .TU_CONNECTED, peer := some a } :=
    lookupTU_updateTU_self _ a _ _ h1
  rw [h2]
  simp only [Option.some_bind]
  refine ⟨_, _, rfl, h2, ?_⟩
  intro j hja
  rw [lookupTU_updateTU_ne _ a j _ hja, lookupTU_updateTU_ne _ a j _ hja]

/-! ## Dial characterization -/

/-- `tu_dial` by a TU not in `TU_DIAL_TONE`: a no-op that re-emits the
current state and returns -1. -/
theorem tu_dial_noop (sys : Sys) (a : Nat) (t : Option Nat) (da : TUData) (e : Eff)
    (hA : lookupTU sys a = some da) (hs : da.state ≠ .TU_DIAL_TONE)
    (hN : notify_client_of_tu_state sys a = some e) :
    tu_dial sys a t = some (sys,
      Eff.app { locks := [.acqTU a] } (Eff.app e { locks := [.relTU a] }), -1) := by
  simp only [tu_dial, hA, Option.some_bind, if_pos hs, hN, Option.some_bind]

/-- `tu_dial` with a NULL target from `TU_DIAL_TONE`: the TU moves to
`TU_ERROR` and is sent an `ERROR` line. -/
theorem tu_dial_nullTarget (sys : Sys) (a : Nat) (da : TUData)
    (hA : lookupTU sys a = some da) (hst : da.state = .TU_DIAL_TONE) :
    tu_dial sys a none = some (updateTU sys a { da with state := .TU_ERROR },
      Eff.app { locks := [.acqTU a] }
        (Eff.app (notify_client da.fd ("ERROR" ++ crlf)) { locks := [.relTU a] }), -1) := by
  have hno : ¬ da.state ≠ .TU_DIAL_TONE := fun hh => hh hst
  simp only [tu_dial, hA, Option.some_bind, if_neg hno]

/-- `tu_dial` from `TU_DIAL_TONE` to a busy target (self-dial, target not
on hook, or target already peered): the TU moves to `TU_BUSY_SIGNAL` and
is sent a `BUSY SIGNAL` line. -/
theorem tu_dial_busy (sys : Sys) (a t : Nat) (da td : TUData)
    (hA : lookupTU sys a = some da) (hst : da.state = .TU_DIAL_TONE)
    (hT : lookupTU sys t = some td)
    (hcond : a = t ∨ td.state ≠ .TU_ON_HOOK ∨ td.peer ≠ none) :
    tu_dial sys a (some t) = some (updateTU sys a { da with state := .TU_BUSY_SIGNAL },
      Eff.app (Eff.app { locks := [.acqTU a] } (Eff.app { locks := [.relTU a] } (safeLock a t)))
        (Eff.app (notify_client da.fd ("BUSY SIGNAL" ++ crlf)) (safeUnlock a t)), -1) := by
  have hno : ¬ da.state ≠ .TU_DIAL_TONE := fun hh => hh hst
  simp only [tu_dial, hA, Option.some_bind, if_neg hno, hT, if_pos hcond]

/-- `tu_dial` from `TU_DIAL_TONE` to a distinct on-hook unpeered target:
the two TUs are peered, both reference counts incremented, the caller
rings back and the target rings, each notified accordingly. -/
theorem tu_dial_success (sys : Sys) (a t : Nat) (da td : TUData)
    (hA : lookupTU sys a = some da) (hst : da.state = .TU_DIAL_TONE)
    (hT : lookupTU sys t = some td) (hat : a ≠ t)
    (hts : td.state = .TU_ON_HOOK) (htp : td.peer = none) :
    ∃ sys2 eff,
      tu_dial sys a (some t) = some (sys2, eff, 0) ∧
      lookupTU sys2 a =
        some { da with ref_count := da.ref_count + 1, state := .TU_RING_BACK, peer := some t } ∧
      lookupTU sys2 t =
        some { td with ref_count := td.ref_count + 1, state := .TU_RINGING, peer := some a } ∧
      (∀ j, j ≠ a → j ≠ t → lookupTU sys2 j = lookupTU sys j) ∧
      eff.writes = (notify_client da.fd ("RING BACK" ++ crlf)).writes ++
        (notify_client td.fd ("RINGING" ++ crlf)).writes := by
  have hta : t ≠ a := fun hh => hat hh.symm
  have hno : ¬ da.state ≠ .TU_DIAL_TONE := fun hh => hh hst
  have hcond : ¬ (a = t ∨ td.state ≠ .TU_ON_HOOK ∨ td.peer ≠ none) := by
    simp [hat, hts, htp]
  simp only [tu_dial, hA, Option.some_bind, if_neg hno, hT, if_neg hcond]
  have h1t : lookupTU (updateTU sys a { da with peer := some t }) t = some td :=
    (lookupTU_updateTU_ne sys a t _ hta).trans hT
  rw [h1t]
  simp only [Option.some_bind, tu_ref]
  have h2t : lookupTU (updateTU (updateTU sys a { da with peer := some t }) t
      { td with peer := some a }) t = some { td with peer := some a } :=
    lookupTU_updateTU_self _ t _ _ h1t
  rw [h2t]
  simp only [Option.some_bind]
  have h3a : lookupTU (updateTU (updateTU (updateTU sys a { da with peer := some t }) t
      { td with peer := some a }) t
      { td with ref_count := td.ref_count + 1, peer := some a }) a =
      some { da with peer := some t } := by
    rw [lookupTU_updateTU_ne _ t a _ hat, lookupTU_updateTU_ne _ t a _ hat]
    exact lookupTU_updateTU_self sys a _ da hA
  rw [h3a]
  simp only [Option.some_bind]
  have h4a : lookupTU (updateTU (updateTU (updateTU (updateTU sys a
      { da with peer := some t }) t { td with peer := some a }) t
      { td with ref_count := td.ref_count + 1, peer := some a }) a
      { da with ref_count := da.ref_count + 1, peer := some t }) a =
      some { da with ref_count := da.ref_count + 1, peer := some t } :=
    lookupTU_updateTU_self _ a _ _ h3a
  rw [h4a]
  simp only [Option.some_bind]
  have h5t : lookupTU (updateTU (updateTU (updateTU (updateTU (updateTU sys a
      { da with peer := some t }) t { td with peer := some a }) t
      { td with ref_count := td.ref_count + 1, peer := some a }) a
      { da with ref_count := da.ref_count + 1, peer := some t }) a
      { da with ref_count := da.ref_count + 1, state := .TU_RING_BACK, peer := some t }) t =
      some { td with ref_count := td.ref_count + 1, peer := some a } := by
    rw [lookupTU_updateTU_ne _ a t _ hta, lookupTU_updateTU_ne _ a t _ hta]
    exact lookupTU_updateTU_self _ t _ _ h2t
  rw [h5t]
  simp only [Option.some_bind]
  have h6a : lookupTU (updateTU (updateTU (updateTU (updateTU (updateTU (updateTU sys a
      { da with peer := some t }) t { td with peer := some a }) t
      { td with ref_count := td.ref_count + 1, peer := some a }) a
      { da with ref_count := da.ref_count + 1, peer := some t }) a
      { da with ref_count := da.ref_count + 1, state := .TU_RING_BACK, peer := some t }) t
      { td with ref_count := td.ref_count + 1, state := .TU_RINGING, peer := some a }) a =
      some { da with ref_count := da.ref_count + 1, state := .TU_RING_BACK, peer := some t } := by
    rw [lookupTU_updateTU_ne _ t a _ hat]
    exact lookupTU_updateTU_self _ a _ _ h4a
  rw [h6a]
  simp only [Option.some_bind]
  have h6t : lookupTU (updateTU (updateTU (updateTU (updateTU (updateTU (updateTU sys a
      { da with peer := some t }) t { td with peer := some a }) t
      { td with ref_count := td.ref_count + 1, peer := some a }) a
      { da with ref_count := da.ref_count + 1, peer := some t }) a
      { da with ref_count := da.ref_count + 1, state := .TU_RING_BACK, peer := some t }) t
      { td with ref_count := td.ref_count + 1, state := .TU_RINGING, peer := some a }) t =
      some { td with ref_count := td.ref_count + 1, state := .TU_RINGING, peer := some a } :=
    lookupTU_updateTU_self _ t _ _ h5t
  rw [h6t]
  simp only [Option.some_bind]
  refine ⟨_, _, rfl, h6a, h6t, ?_, ?_⟩
  · intro j hja hjt
    rw [lookupTU_updateTU_ne _ t j _ hjt, lookupTU_updateTU_ne _ a j _ hja,
      lookupTU_updateTU_ne _ a j _ hja, lookupTU_updateTU_ne _ t j _ hjt,
      lookupTU_updateTU_ne _ t j _ hjt, lookupTU_updateTU_ne _ a j _ hja]
  · simp

/-! ## Chat characterization -/

/-- `tu_chat` by a TU that is not connected (or has no peer): a no-op
that re-emits the current state and returns -1. -/
theorem tu_chat_noop (sys : Sys) (a : Nat) (m : String) (da : TUData) (e : Eff)
    (hA : lookupTU sys a = some da)
    (hcond : da.state ≠ .TU_CONNECTED ∨ da.peer = none)
    (hN : notify_client_of_tu_state sys a = some e) :
    tu_chat sys a m = some (sys,
      Eff.app { locks := [.acqTU a] } (Eff.app e { locks := [.relTU a] }), -1) := by
  simp only [tu_chat, hA, Option.some_bind, if_pos hcond, hN, Option.some_bind]

/-- `tu_chat` by a connected TU: the heap is unchanged; the `CHAT` line is
written to file descriptor number `peer->ext`, and the sender is
re-notified `CONNECTED <peer-ext>`. -/
theorem tu_chat_connected (sys : Sys) (a b : Nat) (m : String) (da db : TUData)
    (hA : lookupTU sys a = some da) (hst : da.state = .TU_CONNECTED)
    (hp : da.peer = some b) (hB : lookupTU sys b = some db) :
    ∃ eff,
      tu_chat sys a m = some (sys, eff, 0) ∧
      eff.writes = (notify_client db.ext (chatMsg m)).writes ++
        (notify_client da.fd (sn 15 (connectedMsg db.ext))).writes := by
  have hcond : ¬ (da.state ≠ .TU_CONNECTED ∨ (some b : Option Nat) = none) := by simp [hst]
  simp only [tu_chat, hA, Option.some_bind, hp, if_neg hcond, hB, Option.some_bind]
  exact ⟨_, rfl, by simp⟩

/-! ## Notify helper lemmas -/

/-- `notify_client_of_tu_state` succeeds whenever the TU exists and, if
connected, its peer pointer is live. -/
theorem notify_state_some (sys : Sys) (i : Nat) (d : TUData)
    (hA : lookupTU sys i = some d)
    (hcon : d.state = .TU_CONNECTED → ∃ p pd, d.peer = some p ∧ lookupTU sys p = some pd) :
    ∃ e, notify_client_of_tu_state sys i = some e := by
  rw [← Option.isSome_iff_exists]
  simp only [notify_client_of_tu_state, hA, Option.some_bind]
  cases hst : d.state
  case TU_CONNECTED =>
    obtain ⟨p, pd, hp, hpd⟩ := hcon hst
    simp [hp, hpd]
  all_goals simp

/-- A successful `notify_client_of_tu_state` takes no locks and closes
nothing. -/
theorem notify_state_locks (sys : Sys) (i : Nat) (e : Eff)
    (h : notify_client_of_tu_state sys i = some e) : e.locks = [] ∧ e.closes = [] := by
  simp only [notify_client_of_tu_state] at h
  rw [Option.bind_eq_some] at h
  obtain ⟨d, _, h⟩ := h
  have hnc : ∀ fd m, e = notify_client fd m → e.locks = [] ∧ e.closes = [] := by
    intro fd m he
    unfold notify_client at he
    split at he <;> simp [he]
  cases hst : d.state <;> rw [hst] at h
  case TU_CONNECTED =>
    rw [Option.bind_eq_some] at h
    obtain ⟨p, _, h⟩ := h
    rw [Option.bind_eq_some] at h
    obtain ⟨pd, _, h⟩ := h
    cases h
    exact hnc _ _ rfl
  all_goals cases h
  all_goals exact hnc _ _ rfl

/-! ## Claim C1 (amended) -/

/-- Claim C1, amended: for every TU A in `TU_RINGING` with a distinct
live peer B (in `TU_RING_BACK`, holding more than one reference, both
fds valid), hangup on A moves A to `TU_ON_HOOK` and moves B to
`TU_DIAL_TONE` — not `TU_ON_HOOK` — clearing both pointers; A is sent
`ON HOOK <fd>` and B is sent `DIAL TONE`. -/
theorem C1_hangup_ringing_amended (sys : Sys) (a b : Nat) (da db : TUData)
    (hA : lookupTU sys a = some da) (hst : da.state = .TU_RINGING)
    (hp : da.peer = some b) (hab : a ≠ b) (hB : lookupTU sys b = some db)
    (_hbst : db.state = .TU_RING_BACK) (hrc : db.ref_count ≠ 1)
    (hfa : 0 ≤ da.fd) (hfb : 0 ≤ db.fd) :
    ∃ sys2 eff,
      tu_hangup sys a = some (sys2, eff, 0) ∧
      ((lookupTU sys2 a).map fun x => (x.state, x.peer)) = some (.TU_ON_HOOK, none) ∧
      ((lookupTU sys2 b).map fun x => (x.state, x.peer)) = some (.TU_DIAL_TONE, none) ∧
      eff.writes = [(da.fd, sn 15 (onHookMsg da.fd)), (db.fd, "DIAL TONE" ++ crlf)] := by
  obtain ⟨sys2, eff, heq, ha2, hb2, _, hw⟩ :=
    tu_hangup_pair sys a b da db hA (Or.inr hst) hp hab hB
  rw [if_neg (by omega : ¬ db.ref_count - 1 = 0)] at hb2
  refine ⟨sys2, eff, heq, ?_, ?_, ?_⟩
  · rw [ha2]; rfl
  · rw [hb2]; rfl
  · rw [hw]
    simp [notify_client, not_lt.mpr hfa, not_lt.mpr hfb]

/-- Claim C1, witness at the concrete ringing pair `sysC1`. -/
theorem C1_hangup_ringing_amended_witness :
    ∃ sys2 eff,
      tu_hangup sysC1 1 = some (sys2, eff, 0) ∧
      ((lookupTU sys2 1).map fun x => (x.state, x.peer)) = some (.TU_ON_HOOK, none) ∧
      ((lookupTU sys2 2).map fun x => (x.state, x.peer)) = some (.TU_DIAL_TONE, none) ∧
      eff.writes = [((4 : Int), sn 15 (onHookMsg 4)), ((5 : Int), "DIAL TONE" ++ crlf)] :=
  C1_hangup_ringing_amended sysC1 1 2
    { fd := 4, ext := 4, ref_count := 3, state := .TU_RINGING, peer := some 2 }
    { fd := 5, ext := 5, ref_count := 3, state := .TU_RING_BACK, peer := some 1 }
    (by decide) rfl rfl (by decide) (by decide) rfl (by decide) (by decide) (by decide)

/-! ## Claim C3 (amended) -/

/-- Claim C3, amended: a no-op command re-emits the state through
`notify_client_of_tu_state`, whose dial-tone, ring-back and busy lines
are spelled with underscores; e.g. `pickup` on a TU in `TU_DIAL_TONE`
writes exactly one line and it is `DIAL_TONE\r\n` (the direct-transition
notifications, by contrast, use the spec's spaced spellings). -/
theorem C3_noop_underscore_amended (sys : Sys) (i : Nat) (d : TUData)
    (hA : lookupTU sys i = some d) (hst : d.state = .TU_DIAL_TONE) (hfd : 0 ≤ d.fd) :
    ∃ e, tu_pickup sys i = some (sys, e, 0) ∧
      e.writes = [(d.fd, "DIAL_TONE" ++ crlf)] := by
  have hN : notify_client_of_tu_state sys i =
      some (notify_client d.fd (sn 64 (state_messages .TU_DIAL_TONE))) := by
    simp only [notify_client_of_tu_state, hA, Option.some_bind, hst]
  rw [tu_pickup_noop sys i d _ hA (by rw [hst]; decide) (by rw [hst]; decide) hN]
  refine ⟨_, rfl, ?_⟩
  have hs : sn 64 (state_messages .TU_DIAL_TONE) = "DIAL_TONE" ++ crlf := by decide
  simp [notify_client, not_lt.mpr hfd, hs]

/-- Claim C3, witness at the concrete configuration `sysC3`. -/
theorem C3_noop_underscore_amended_witness :
    ∃ e, tu_pickup sysC3 1 = some (sysC3, e, 0) ∧
      e.writes = [((4 : Int), "DIAL_TONE" ++ crlf)] :=
  C3_noop_underscore_amended sysC3 1
    { fd := 4, ext := 4, ref_count := 2, state := .TU_DIAL_TONE, peer := none }
    (by decide) rfl (by decide)

/-! ## Claim C7 (amended) -/

/-- Claim C7, amended: `tu_init` stores the file descriptor into `ext`
rather than the `-1` sentinel, so for every TU initialized on a
non-negative fd the FIRST `tu_set_extension` call already fails with -1,
changing nothing and emitting nothing; the call could succeed only while
`ext` is `-1`. -/
theorem C7_init_ext_not_sentinel (sys : Sys) (i : Nat) (fd e : Int) (h : 0 ≤ fd) :
    ∃ d, lookupTU (tu_init sys i fd).1 i = some d ∧ d.ext = fd ∧
      tu_set_extension (tu_init sys i fd).1 i e = some ((tu_init sys i fd).1, {}, -1) := by
  have hne : fd ≠ -1 := by omega
  refine ⟨{ fd := fd, ext := fd, ref_count := 1, state := .TU_ON_HOOK, peer := none },
    ?_, rfl, ?_⟩
  · simp [tu_init, lookupTU]
  · have hl : lookupTU (tu_init sys i fd).1 i =
        some { fd := fd, ext := fd, ref_count := 1, state := .TU_ON_HOOK, peer := none } := by
      simp [tu_init, lookupTU]
    simp only [tu_set_extension, hl, Option.some_bind, if_pos]
    rw [if_pos]
    exact hne

/-- Claim C7, witness: a TU initialized on fd 7. -/
theorem C7_init_ext_not_sentinel_witness :
    ∃ d, lookupTU (tu_init [] 2 7).1 2 = some d ∧ d.ext = 7 ∧
      tu_set_extension (tu_init [] 2 7).1 2 9 = some ((tu_init [] 2 7).1, {}, -1) :=
  C7_init_ext_not_sentinel [] 2 7 9 (by decide)

/-! ## Claim C9 -/

/-- Claim C9: for distinct TUs A (dial tone) and X (on hook, unpeered,
still referenced), `dial X` then `hangup` on A returns both to
`TU_ON_HOOK` with both peer pointers cleared — no residual call state. -/
theorem C9_dial_hangup_roundtrip (sys : Sys) (a x : Nat) (da dx : TUData)
    (hA : lookupTU sys a = some da) (hst : da.state = .TU_DIAL_TONE)
    (hX : lookupTU sys x = some dx) (hxs : dx.state = .TU_ON_HOOK) (hxp : dx.peer = none)
    (hax : a ≠ x) (hrc : dx.ref_count ≠ 0) :
    ∃ sys1 e1 sys2 e2,
      tu_dial sys a (some x) = some (sys1, e1, 0) ∧
      tu_hangup sys1 a = some (sys2, e2, 0) ∧
      ((lookupTU sys2 a).map fun d => (d.state, d.peer)) = some (.TU_ON_HOOK, none) ∧
      ((lookupTU sys2 x).map fun d => (d.state, d.peer)) = some (.TU_ON_HOOK, none) := by
  obtain ⟨sys1, e1, heq1, ha1, hx1, _, _⟩ :=
    tu_dial_success sys a x da dx hA hst hX hax hxs hxp
  obtain ⟨sys2, e2, heq2, ha2, hx2, _, _⟩ :=
    tu_hangup_ringback_pair sys1 a x _ _ ha1 rfl rfl hax hx1
  rw [if_neg (by omega : ¬ dx.ref_count + 1 - 1 = 0)] at hx2
  refine ⟨sys1, e1, sys2, e2, heq1, heq2, ?_, ?_⟩
  · rw [ha2]; rfl
  · rw [hx2]; rfl

/-- Claim C9, witness at the concrete pair `sysC5`. -/
theorem C9_dial_hangup_roundtrip_witness :
    ∃ sys1 e1 sys2 e2,
      tu_dial sysC5 1 (some 2) = some (sys1, e1, 0) ∧
      tu_hangup sys1 1 = some (sys2, e2, 0) ∧
      ((lookupTU sys2 1).map fun d => (d.state, d.peer)) = some (.TU_ON_HOOK, none) ∧
      ((lookupTU sys2 2).map fun d => (d.state, d.peer)) = some (.TU_ON_HOOK, none) :=
  C9_dial_hangup_roundtrip sysC5 1 2
    { fd := 4, ext := 4, ref_count := 2, state := .TU_DIAL_TONE, peer := none }
    { fd := 5, ext := 5, ref_count := 2, state := .TU_ON_HOOK, peer := none }
    (by decide) rfl (by decide) rfl rfl (by decide) (by decide)

/-! ## Claim C10 -/

/-- Claim C10: a connected TU's chat line is written with the peer's
EXTENSION NUMBER used as the file descriptor (`notify_client(tu->peer->ext, ...)`),
so it reaches the peer's socket only because this program makes
`ext = fd`: `tu_init` initializes `ext` to the fd (second conjunct), and
the server registers each TU under its fd. -/
theorem C10_chat_writes_to_ext (sys : Sys) :
    (∀ (a b : Nat) (m : String) (da db : TUData),
      lookupTU sys a = some da → da.state = .TU_CONNECTED → da.peer = some b →
      lookupTU sys b = some db → 0 ≤ db.ext → 0 ≤ da.fd →
      ∃ eff, tu_chat sys a m = some (sys, eff, 0) ∧
        eff.writes = [(db.ext, chatMsg m), (da.fd, sn 15 (connectedMsg db.ext))]) ∧
    (∀ (i : Nat) (fd : Int),
      ((lookupTU (tu_init sys i fd).1 i).map fun d => (d.ext, d.fd)) = some (fd, fd)) := by
  constructor
  · intro a b m da db hA hst hp hB hext hfd
    obtain ⟨eff, heq, hw⟩ := tu_chat_connected sys a b m da db hA hst hp hB
    refine ⟨eff, heq, ?_⟩
    rw [hw]
    simp [notify_client, not_lt.mpr hext, not_lt.mpr hfd]
  · intro i fd
    simp [tu_init, lookupTU]

/-- Claim C10, witness: chat between the connected TUs 1 and 2, and
initialization on fd 4. -/
theorem C10_chat_writes_to_ext_witness :
    (∀ (a b : Nat) (m : String) (da db : TUData),
      lookupTU sysC10 a = some da → da.state = .TU_CONNECTED → da.peer = some b →
      lookupTU sysC10 b = some db → 0 ≤ db.ext → 0 ≤ da.fd →
      ∃ eff, tu_chat sysC10 a m = some (sysC10, eff, 0) ∧
        eff.writes = [(db.ext, chatMsg m), (da.fd, sn 15 (connectedMsg db.ext))]) ∧
    (∀ (i : Nat) (fd : Int),
      ((lookupTU (tu_init sysC10 i fd).1 i).map fun d => (d.ext, d.fd)) = some (fd, fd)) :=
  C10_chat_writes_to_ext sysC10

/-! ## Lock-trace lemmas for claim C4 -/

/-- A lock trace with no PBX-lock events at all. -/
def noPBX : List LockEvent → Bool
  | [] => true
  | .acqPBX :: _ => false
  | .relPBX :: _ => false
  | _ :: rest => noPBX rest

@[simp] theorem noPBX_nil : noPBX [] = true := rfl

@[simp] theorem noPBX_acqTU (i : Nat) (l : List LockEvent) :
    noPBX (.acqTU i :: l) = noPBX l := rfl

@[simp] theorem noPBX_relTU (i : Nat) (l : List LockEvent) :
    noPBX (.relTU i :: l) = noPBX l := rfl

@[simp] theorem noPBX_append (a b : List LockEvent) :
    noPBX (a ++ b) = (noPBX a && noPBX b) := by
  induction a with
  | nil => simp
  | cons e tl ih => cases e <;> simp [noPBX, ih]

@[simp] theorem notify_client_locks (fd : Int) (m : String) :
    (notify_client fd m).locks = [] := by
  unfold notify_client; split <;> rfl

@[simp] theorem notify_client_closes (fd : Int) (m : String) :
    (notify_client fd m).closes = [] := by
  unfold notify_client; split <;> rfl

@[simp] theorem safeLock_noPBX (a b : Nat) : noPBX (safeLock a b).locks = true := by
  unfold safeLock; split <;> rfl

@[simp] theorem safeUnlock_noPBX (a b : Nat) : noPBX (safeUnlock a b).locks = true := by
  unfold safeUnlock; split <;> rfl

@[simp] theorem locks_ite_closes (c : Prop) [Decidable c] (l : List Int) :
    (if c then ({ closes := l } : Eff) else {}).locks = [] := by
  split <;> rfl

/-- Scanning a PBX-event-free segment while the PBX lock is held flags
nothing and leaves the lock held. -/
theorem pbxFree_scan_skip (l : List LockEvent) (h : noPBX l = true) (rest : List LockEvent) :
    anyTuAcqWhilePBXFree true (l ++ rest) = anyTuAcqWhilePBXFree true rest := by
  induction l with
  | nil => rfl
  | cons e tl ih =>
    cases e with
    | acqPBX => simp [noPBX] at h
    | relPBX => simp [noPBX] at h
    | acqTU i =>
      rw [noPBX_acqTU] at h
      simpa [anyTuAcqWhilePBXFree] using ih h
    | relTU i =>
      rw [noPBX_relTU] at h
      simpa [anyTuAcqWhilePBXFree] using ih h

/-- Every lock taken by `tu_unref` is a TU mutex. -/
theorem tu_unrefF_noPBX (f : Nat) : ∀ (sys : Sys) (t : Option Nat) (r : Sys × Eff),
    tu_unrefF f sys t = some r → noPBX r.2.locks = true := by
  induction f with
  | zero =>
    intro sys t r h
    cases t with
    | none => cases h; rfl
    | some i => simp [tu_unrefF] at h
  | succ f ih =>
    intro sys t r h
    cases t with
    | none => cases h; rfl
    | some i =>
      cases hl : lookupTU sys i with
      | none =>
        rw [tu_unrefF, hl] at h
        simp at h
      | some d =>
        by_cases hz : d.ref_count - 1 = 0
        · cases hp : d.peer with
          | none =>
            rw [tu_unrefF_zero_noPeer f sys i d hl hz hp] at h
            cases h
            simp
          | some p =>
            simp only [tu_unrefF, hl, Option.some_bind, if_pos hz, hp] at h
            rw [Option.bind_eq_some] at h
            obtain ⟨pd, hpd, h⟩ := h
            rw [Option.bind_eq_some] at h
            obtain ⟨rr, hrr, h⟩ := h
            rw [Option.bind_eq_some] at h
            obtain ⟨pd2, hpd2, h⟩ := h
            rw [Option.bind_eq_some] at h
            obtain ⟨d2, hd2, h⟩ := h
            cases h
            simp [ih _ _ _ hrr]
        · rw [tu_unrefF_dec f sys i d hl hz] at h
          cases h
          simp

/-- Every lock taken by `tu_dial` is a TU mutex. -/
theorem tu_dial_noPBX (sys : Sys) (i : Nat) (t : Option Nat) (r : Sys × Eff × Int)
    (h : tu_dial sys i t = some r) : noPBX r.2.1.locks = true := by
  cases hl : lookupTU sys i with
  | none => rw [tu_dial, hl] at h; simp at h
  | some d =>
    by_cases hs : d.state ≠ .TU_DIAL_TONE
    · simp only [tu_dial, hl, Option.some_bind, if_pos hs] at h
      rw [Option.bind_eq_some] at h
      obtain ⟨e, he, h⟩ := h
      cases h
      obtain ⟨hel, _⟩ := notify_state_locks sys i e he
      simp [hel]
    · cases t with
      | none =>
        simp only [tu_dial, hl, Option.some_bind, if_neg hs] at h
        cases h
        simp
      | some tt =>
        simp only [tu_dial, hl, Option.some_bind, if_neg hs] at h
        rw [Option.bind_eq_some] at h
        obtain ⟨td, htd, h⟩ := h
        split_ifs at h with hcond
        · cases h; simp
        · rw [Option.bind_eq_some] at h
          obtain ⟨td1, htd1, h⟩ := h
          rw [Option.bind_eq_some] at h
          obtain ⟨s3, hs3, h⟩ := h
          rw [Option.bind_eq_some] at h
          obtain ⟨s4, hs4, h⟩ := h
          rw [Option.bind_eq_some] at h
          obtain ⟨d4, hd4, h⟩ := h
          rw [Option.bind_eq_some] at h
          obtain ⟨t5, ht5, h⟩ := h
          rw [Option.bind_eq_some] at h
          obtain ⟨d6, hd6, h⟩ := h
          rw [Option.bind_eq_some] at h
          obtain ⟨t6, ht6, h⟩ := h
          cases h
          simp

/-- Every lock taken by the tail of `tu_hangup` is a TU mutex, provided
the prefix and suffix effects contain none but TU locks. -/
theorem hangupTail_noPBX (sys : Sys) (i : Nat) (pre post : Eff) (r : Sys × Eff × Int)
    (h : hangupTail sys i pre post = some r)
    (hpre : noPBX pre.locks = true) (hpost : noPBX post.locks = true) :
    noPBX r.2.1.locks = true := by
  simp only [hangupTail] at h
  rw [Option.bind_eq_some] at h
  obtain ⟨dd, hdd, h⟩ := h
  rw [Option.bind_eq_some] at h
  obtain ⟨ru, hru, h⟩ := h
  rw [Option.bind_eq_some] at h
  obtain ⟨d1, hd1, h⟩ := h
  cases h
  have hu := tu_unrefF_noPBX 8 _ _ _ hru
  simp [hpre, hpost, hu]

/-- Every lock taken by `tu_hangup` is a TU mutex. -/
theorem tu_hangup_noPBX (sys : Sys) (i : Nat) (r : Sys × Eff × Int)
    (h : tu_hangup sys i = some r) : noPBX r.2.1.locks = true := by
  cases hl : lookupTU sys i with
  | none => rw [tu_hangup, hl] at h; simp at h
  | some d =>
    by_cases h1 : d.state = .TU_CONNECTED ∨ d.state = .TU_RINGING
    · simp only [tu_hangup, hl, Option.some_bind, if_pos h1] at h
      cases hp : d.peer with
      | none => rw [hp] at h; simp at h
      | some p =>
        rw [hp, Option.some_bind] at h
        rw [Option.bind_eq_some] at h
        obtain ⟨pd, hpd, h⟩ := h
        rw [Option.bind_eq_some] at h
        obtain ⟨d2, hd2, h⟩ := h
        rw [Option.bind_eq_some] at h
        obtain ⟨p2, hp2, h⟩ := h
        rw [Option.bind_eq_some] at h
        obtain ⟨pd2, hpd2, h⟩ := h
        exact hangupTail_noPBX _ _ _ _ _ h (by simp) (by simp)
    · by_cases h2 : d.state = .TU_RING_BACK
      · simp only [tu_hangup, hl, Option.some_bind, if_neg h1, if_pos h2] at h
        cases hp : d.peer with
        | none => rw [hp] at h; simp at h
        | some p =>
          rw [hp, Option.some_bind] at h
          rw [Option.bind_eq_some] at h
          obtain ⟨pd, hpd, h⟩ := h
          rw [Option.bind_eq_some] at h
          obtain ⟨d2, hd2, h⟩ := h
          rw [Option.bind_eq_some] at h
          obtain ⟨p2, hp2, h⟩ := h
          rw [Option.bind_eq_some] at h
          obtain ⟨pd2, hpd2, h⟩ := h
          exact hangupTail_noPBX _ _ _ _ _ h (by simp) (by simp)
      · by_cases h3 : d.state = .TU_DIAL_TONE ∨ d.state = .TU_BUSY_SIGNAL ∨
            d.state = .TU_ERROR
        · simp only [tu_hangup, hl, Option.some_bind, if_neg h1, if_neg h2, if_pos h3] at h
          exact hangupTail_noPBX _ _ _ _ _ h (by simp) (by simp)
        · simp only [tu_hangup, hl, Option.some_bind, if_neg h1, if_neg h2, if_neg h3] at h
          rw [Option.bind_eq_some] at h
          obtain ⟨e, he, h⟩ := h
          cases h
          obtain ⟨hel, _⟩ := notify_state_locks sys i e he
          simp [hel]

/-! ## Claim C4 (amended) -/

/-- Claim C4, amended: the PBX lock is NOT released before calling into
the TU layer; instead `pbx_dial` (and `pbx_unregister`) hold the PBX
registry lock across the whole TU-layer call, so every TU mutex
acquisition they perform happens while the PBX lock is held (no TU mutex
is ever acquired by them with the PBX lock free). -/
theorem C4_pbx_lock_held_across_tu_locks :
    (∀ (sys : Sys) (pbx : PBXData) (i : Nat) (ext : Int) (r : Sys × Eff × Int),
      pbx_dial sys pbx i ext = some r →
      anyTuAcqWhilePBXFree false r.2.1.locks = false) ∧
    (∀ (sys : Sys) (pbx : PBXData) (i : Nat) (r : Sys × PBXData × Eff × Int),
      pbx_unregister sys pbx i = some r →
      anyTuAcqWhilePBXFree false r.2.2.1.locks = false) := by
  constructor
  · intro sys pbx i ext r h
    by_cases hb : ext < 0 ∨ PBX_MAX_EXTENSIONS ≤ ext
    · rw [pbx_dial, if_pos hb] at h
      cases h
      rfl
    · rw [pbx_dial, if_neg hb] at h
      cases hx : extLookup pbx.extensions ext with
      | none => rw [hx] at h; cases h; rfl
      | some t =>
        rw [hx] at h
        rw [Option.bind_eq_some] at h
        obtain ⟨s1, _, h⟩ := h
        rw [Option.bind_eq_some] at h
        obtain ⟨s2, _, h⟩ := h
        rw [Option.bind_eq_some] at h
        obtain ⟨rd, hrd, h⟩ := h
        rw [Option.bind_eq_some] at h
        obtain ⟨r1, hr1, h⟩ := h
        rw [Option.bind_eq_some] at h
        obtain ⟨r2, hr2, h⟩ := h
        cases h
        have hn1 := tu_dial_noPBX _ _ _ _ hrd
        have hn2 := tu_unrefF_noPBX 8 _ _ _ hr1
        have hn3 := tu_unrefF_noPBX 8 _ _ _ hr2
        simp only [Eff_app_locks, List.singleton_append, anyTuAcqWhilePBXFree,
          List.append_eq, List.nil_append]
        rw [pbxFree_scan_skip _ hn1, pbxFree_scan_skip _ hn2, pbxFree_scan_skip _ hn3]
        rfl
  · intro sys pbx i r h
    cases hl : lookupTU sys i with
    | none => rw [pbx_unregister, hl] at h; simp at h
    | some d =>
      by_cases hb : d.ext < 0 ∨ PBX_MAX_EXTENSIONS ≤ d.ext ∨
          extLookup pbx.extensions d.ext ≠ some i
      · simp only [pbx_unregister, hl, Option.some_bind, if_pos hb] at h
        cases h
        rfl
      · simp only [pbx_unregister, hl, Option.some_bind, if_neg hb] at h
        rw [Option.bind_eq_some] at h
        obtain ⟨s1, _, h⟩ := h
        rw [Option.bind_eq_some] at h
        obtain ⟨rh, hrh, h⟩ := h
        rw [Option.bind_eq_some] at h
        obtain ⟨r1, hr1, h⟩ := h
        rw [Option.bind_eq_some] at h
        obtain ⟨r2, hr2, h⟩ := h
        cases h
        have hn1 := tu_hangup_noPBX _ _ _ hrh
        have hn2 := tu_unrefF_noPBX 8 _ _ _ hr1
        have hn3 := tu_unrefF_noPBX 8 _ _ _ hr2
        simp only [Eff_app_locks, List.singleton_append, anyTuAcqWhilePBXFree,
          List.append_eq, List.nil_append]
        rw [pbxFree_scan_skip _ hn1, pbxFree_scan_skip _ hn2, pbxFree_scan_skip _ hn3]
        rfl

/-- Claim C4, witness: the concrete successful dial from TU 1 to
extension 5 acquires its TU locks only while the PBX lock is held. -/
theorem C4_pbx_lock_held_across_tu_locks_witness :
    anyTuAcqWhilePBXFree false
      (((pbx_dial sysC5 pbxC4 1 5).getD (sysC5, {}, 0)).2.1.locks) = false :=
  C4_pbx_lock_held_across_tu_locks.1 sysC5 pbxC4 1 5 _ rfl

/-! ## The peer invariant (claim C8) -/

/-- The states in which a TU takes part in a call. -/
def stateNeedsPeer (s : TU_STATE) : Prop :=
  s = .TU_RINGING ∨ s = .TU_RING_BACK ∨ s = .TU_CONNECTED

/-- Spec §3, invariants 1 and 2: a TU's peer pointer is set exactly when
its state is `TU_RINGING`, `TU_RING_BACK` or `TU_CONNECTED`, and the
peer relation is symmetric. -/
def peerInv (sys : Sys) : Prop :=
  ∀ i d, lookupTU sys i = some d →
    (d.peer.isSome = true ↔ stateNeedsPeer d.state) ∧
    ∀ p, d.peer = some p → ∃ pd, lookupTU sys p = some pd ∧ pd.peer = some i

theorem peerInv_peer_none (sys : Sys) (a : Nat) (da : TUData)
    (hinv : peerInv sys) (hA : lookupTU sys a = some da)
    (hns : ¬ stateNeedsPeer da.state) : da.peer = none := by
  cases hp : da.peer with
  | none => rfl
  | some p =>
    exact absurd ((hinv a da hA).1.mp (by simp [hp])) hns

/-- Nobody points at a TU whose own pointer is clear. -/
theorem peerInv_nopointer (sys : Sys) (a : Nat) (da : TUData)
    (hinv : peerInv sys) (hA : lookupTU sys a = some da) (hp : da.peer = none) :
    ∀ j dj, lookupTU sys j = some dj → dj.peer ≠ some a := by
  intro j dj hj hcon
  obtain ⟨pd, hpd, hback⟩ := (hinv j dj hj).2 a hcon
  rw [hA] at hpd
  cases hpd
  rw [hp] at hback
  cases hback

/-- Only the TU a peer points back at points at that peer. -/
theorem peerInv_pointer_unique (sys : Sys) (a b : Nat) (da : TUData)
    (hinv : peerInv sys) (hA : lookupTU sys a = some da) (hp : da.peer = some b) :
    ∀ j dj, lookupTU sys j = some dj → dj.peer = some b → j = a := by
  intro j dj hj hjp
  obtain ⟨pd, hpd, hback⟩ := (hinv j dj hj).2 b hjp
  obtain ⟨pd2, hpd2, hback2⟩ := (hinv a da hA).2 b hp
  rw [hpd] at hpd2
  cases hpd2
  rw [hback] at hback2
  exact Option.some.inj hback2

/-- Re-establishing the invariant after replacing two entries. -/
theorem peerInv_set2 (sys sys2 : Sys) (a b : Nat) (da2 db2 : TUData) (hab : a ≠ b)
    (hinv : peerInv sys)
    (ha : lookupTU sys2 a = some da2) (hb : lookupTU sys2 b = some db2)
    (hframe : ∀ j, j ≠ a → j ≠ b → lookupTU sys2 j = lookupTU sys j)
    (hnoa : ∀ j dj, lookupTU sys j = some dj → j ≠ a → j ≠ b → dj.peer ≠ some a)
    (hnob : ∀ j dj, lookupTU sys j = some dj → j ≠ a → j ≠ b → dj.peer ≠ some b)
    (hiffa : da2.peer.isSome = true ↔ stateNeedsPeer da2.state)
    (hiffb : db2.peer.isSome = true ↔ stateNeedsPeer db2.state)
    (hpa : ∀ p, da2.peer = some p → p = b ∧ db2.peer = some a)
    (hpb : ∀ p, db2.peer = some p → p = a ∧ da2.peer = some b) :
    peerInv sys2 := by
  intro j dj hj
  by_cases hja : j = a
  · subst hja
    rw [ha] at hj
    cases hj
    refine ⟨hiffa, ?_⟩
    intro p hp
    obtain ⟨rfl, hsym⟩ := hpa p hp
    exact ⟨db2, hb, hsym⟩
  · by_cases hjb : j = b
    · subst hjb
      rw [hb] at hj
      cases hj
      refine ⟨hiffb, ?_⟩
      intro p hp
      obtain ⟨rfl, hsym⟩ := hpb p hp
      exact ⟨da2, ha, hsym⟩
    · rw [hframe j hja hjb] at hj
      refine ⟨(hinv j dj hj).1, ?_⟩
      intro p hp
      by_cases hpa2 : p = a
      · exact absurd hp (hpa2 ▸ hnoa j dj hj hja hjb)
      · by_cases hpb2 : p = b
        · exact absurd hp (hpb2 ▸ hnob j dj hj hja hjb)
        · obtain ⟨pd, hpd, hback⟩ := (hinv j dj hj).2 p hp
          refine ⟨pd, ?_, hback⟩
          rw [hframe p hpa2 hpb2]
          exact hpd

/-- Re-establishing the invariant after replacing one entry. -/
theorem peerInv_set1 (sys sys2 : Sys) (a : Nat) (da2 : TUData)
    (hinv : peerInv sys)
    (ha : lookupTU sys2 a = some da2)
    (hframe : ∀ j, j ≠ a → lookupTU sys2 j = lookupTU sys j)
    (hnoa : ∀ j dj, lookupTU sys j = some dj → j ≠ a → dj.peer ≠ some a)
    (hiffa : da2.peer.isSome = true ↔ stateNeedsPeer da2.state)
    (hpa : ∀ p, da2.peer = some p → p = a) :
    peerInv sys2 := by
  intro j dj hj
  by_cases hja : j = a
  · subst hja
    rw [ha] at hj
    cases hj
    refine ⟨hiffa, ?_⟩
    intro p hp
    have := hpa p hp
    subst this
    exact ⟨da2, ha, hp⟩
  · rw [hframe j hja] at hj
    refine ⟨(hinv j dj hj).1, ?_⟩
    intro p hp
    by_cases hpa2 : p = a
    · exact absurd hp (hpa2 ▸ hnoa j dj hj hja)
    · obtain ⟨pd, hpd, hback⟩ := (hinv j dj hj).2 p hp
      refine ⟨pd, ?_, hback⟩
      rw [hframe p hpa2]
      exact hpd

/-- Re-establishing the invariant after replacing one entry and freeing
another. -/
theorem peerInv_set1_remove (sys sys2 : Sys) (a b : Nat) (da2 : TUData) (hab : a ≠ b)
    (hinv : peerInv sys)
    (ha : lookupTU sys2 a = some da2)
    (hbgone : lookupTU sys2 b = none)
    (hframe : ∀ j, j ≠ a → j ≠ b → lookupTU sys2 j = lookupTU sys j)
    (hnoa : ∀ j dj, lookupTU sys j = some dj → j ≠ a → j ≠ b → dj.peer ≠ some a)
    (hnob : ∀ j dj, lookupTU sys j = some dj → j ≠ a → j ≠ b → dj.peer ≠ some b)
    (hiffa : da2.peer.isSome = true ↔ stateNeedsPeer da2.state)
    (hpnone : da2.peer = none) :
    peerInv sys2 := by
  intro j dj hj
  by_cases hja : j = a
  · subst hja
    rw [ha] at hj
    cases hj
    refine ⟨hiffa, ?_⟩
    intro p hp
    rw [hpnone] at hp
    cases hp
  · by_cases hjb : j = b
    · subst hjb
      rw [hbgone] at hj
      cases hj
    · rw [hframe j hja hjb] at hj
      refine ⟨(hinv j dj hj).1, ?_⟩
      intro p hp
      by_cases hpa2 : p = a
      · exact absurd hp (hpa2 ▸ hnoa j dj hj hja hjb)
      · by_cases hpb2 : p = b
        · exact absurd hp (hpb2 ▸ hnob j dj hj hja hjb)
        · obtain ⟨pd, hpd, hback⟩ := (hinv j dj hj).2 p hp
          refine ⟨pd, ?_, hback⟩
          rw [hframe p hpa2 hpb2]
          exact hpd

/-- Re-establishing the invariant after freeing an unpointed-at entry. -/
theorem peerInv_remove1 (sys sys2 : Sys) (a : Nat)
    (hinv : peerInv sys)
    (hgone : lookupTU sys2 a = none)
    (hframe : ∀ j, j ≠ a → lookupTU sys2 j = lookupTU sys j)
    (hnoa : ∀ j dj, lookupTU sys j = some dj → j ≠ a → dj.peer ≠ some a) :
    peerInv sys2 := by
  intro j dj hj
  by_cases hja : j = a
  · subst hja
    rw [hgone] at hj
    cases hj
  · rw [hframe j hja] at hj
    refine ⟨(hinv j dj hj).1, ?_⟩
    intro p hp
    by_cases hpa2 : p = a
    · exact absurd hp (hpa2 ▸ hnoa j dj hj hja)
    · obtain ⟨pd, hpd, hback⟩ := (hinv j dj hj).2 p hp
      refine ⟨pd, ?_, hback⟩
      rw [hframe p hpa2]
      exact hpd

/-- Updating one entry without touching its state or peer preserves the
invariant. -/
theorem peerInv_update_same (sys : Sys) (a : Nat) (da da2 : TUData)
    (hinv : peerInv sys) (hA : lookupTU sys a = some da)
    (hstate : da2.state = da.state) (hpeer : da2.peer = da.peer) :
    peerInv (updateTU sys a da2) := by
  intro j dj hj
  by_cases hja : j = a
  · subst hja
    rw [lookupTU_updateTU_self sys j da2 da hA] at hj
    cases hj
    refine ⟨by rw [hstate, hpeer]; exact (hinv j da hA).1, ?_⟩
    intro p hp
    rw [hpeer] at hp
    by_cases hpj : p = j
    · subst hpj
      exact ⟨da2, lookupTU_updateTU_self sys p da2 da hA, by rw [hpeer]; exact hp⟩
    · obtain ⟨pd, hpd, hback⟩ := (hinv j da hA).2 p hp
      refine ⟨pd, ?_, hback⟩
      rw [lookupTU_updateTU_ne sys j p da2 hpj]
      exact hpd
  · rw [lookupTU_updateTU_ne sys a j da2 hja] at hj
    refine ⟨(hinv j dj hj).1, ?_⟩
    intro p hp
    obtain ⟨pd, hpd, hback⟩ := (hinv j dj hj).2 p hp
    by_cases hpa2 : p = a
    · subst hpa2
      rw [hA] at hpd
      cases hpd
      refine ⟨da2, lookupTU_updateTU_self sys p da2 da hA, ?_⟩
      rw [hpeer]
      exact hback
    · refine ⟨pd, ?_, hback⟩
      rw [lookupTU_updateTU_ne sys a p da2 hpa2]
      exact hpd

/-! ## Preservation of the peer invariant -/

/-- `tu_chat` never changes the heap. -/
theorem tu_chat_heap (sys : Sys) (a : Nat) (m : String) (r : Sys × Eff × Int)
    (h : tu_chat sys a m = some r) : r.1 = sys := by
  cases hl : lookupTU sys a with
  | none => rw [tu_chat, hl] at h; simp at h
  | some d =>
    by_cases hc : d.state ≠ .TU_CONNECTED ∨ d.peer = none
    · simp only [tu_chat, hl, Option.some_bind, if_pos hc] at h
      rw [Option.bind_eq_some] at h
      obtain ⟨e, he, h⟩ := h
      cases h
      rfl
    · simp only [tu_chat, hl, Option.some_bind, if_neg hc] at h
      cases hp : d.peer with
      | none => rw [hp] at h; simp at h
      | some p =>
        rw [hp, Option.some_bind] at h
        rw [Option.bind_eq_some] at h
        obtain ⟨pd, hpd, h⟩ := h
        cases h
        rfl

/-- The `TU_CONNECTED` side condition of `notify_state_some`, derived
from the invariant. -/
theorem peerInv_connected_peer (sys : Sys) (a : Nat) (d : TUData)
    (hinv : peerInv sys) (hl : lookupTU sys a = some d) :
    d.state = .TU_CONNECTED → ∃ p pd, d.peer = some p ∧ lookupTU sys p = some pd := by
  intro hc
  have hps := (hinv a d hl).1.mpr (Or.inr (Or.inr hc))
  obtain ⟨p, hp⟩ := Option.isSome_iff_exists.mp hps
  obtain ⟨pd, hpd, _⟩ := (hinv a d hl).2 p hp
  exact ⟨p, pd, hp, hpd⟩

/-- `tu_pickup` preserves the peer invariant. -/
theorem tu_pickup_preserves (sys : Sys) (a : Nat) (r : Sys × Eff × Int)
    (hinv : peerInv sys) (h : tu_pickup sys a = some r) : peerInv r.1 := by
  cases hl : lookupTU sys a with
  | none => rw [tu_pickup, hl] at h; simp at h
  | some d =>
    by_cases hoh : d.state = .TU_ON_HOOK
    · rw [tu_pickup_onhook sys a d hl hoh] at h
      cases h
      have hpn : d.peer = none :=
        peerInv_peer_none sys a d hinv hl (by rw [hoh]; simp [stateNeedsPeer])
      apply peerInv_set1 sys _ a _ hinv (lookupTU_updateTU_self sys a _ d hl)
        (fun j hja => lookupTU_updateTU_ne sys a j _ hja)
        (fun j dj hj _ => peerInv_nopointer sys a d hinv hl hpn j dj hj)
        (by simp [hpn, stateNeedsPeer])
        (fun p hp => by rw [hpn] at hp; cases hp)
    · by_cases hrg : d.state = .TU_RINGING
      · have hps := (hinv a d hl).1.mpr (Or.inl hrg)
        obtain ⟨p, hp⟩ := Option.isSome_iff_exists.mp hps
        obtain ⟨pd, hpd, hback⟩ := (hinv a d hl).2 p hp
        by_cases hap : a = p
        · subst hap
          obtain ⟨sys2, eff, heq, ha2, hframe⟩ := tu_pickup_ringing_self sys a d hl hrg hp
          rw [heq] at h
          cases h
          apply peerInv_set1 sys sys2 a _ hinv ha2 hframe
            (fun j dj hj hja hcon =>
              hja (peerInv_pointer_unique sys a a d hinv hl hp j dj hj hcon))
            (by simp [stateNeedsPeer])
            (fun q hq => (Option.some.inj hq).symm)
        · obtain ⟨sys2, eff, heq, ha2, hb2, hframe, _⟩ :=
            tu_pickup_ringing sys a p d pd hl hrg hp hap hpd
          rw [heq] at h
          cases h
          apply peerInv_set2 sys sys2 a p _ _ hap hinv ha2 hb2 hframe
          · intro j dj hj hja hjp hcon
            exact hjp (peerInv_pointer_unique sys p a pd hinv hpd hback j dj hj hcon)
          · intro j dj hj hja hjp hcon
            exact hja (peerInv_pointer_unique sys a p d hinv hl hp j dj hj hcon)
          · simp [stateNeedsPeer]
          · simp [hback, stateNeedsPeer]
          · intro q hq
            refine ⟨(Option.some.inj hq).symm, ?_⟩
            simpa using hback
          · intro q hq
            simp only at hq
            rw [hback] at hq
            exact ⟨(Option.some.inj hq).symm, rfl⟩
      · obtain ⟨e, he⟩ :=
          notify_state_some sys a d hl (peerInv_connected_peer sys a d hinv hl)
        rw [tu_pickup_noop sys a d e hl hoh hrg he] at h
        cases h
        exact hinv

/-- `tu_dial` preserves the peer invariant. -/
theorem tu_dial_preserves (sys : Sys) (a : Nat) (t : Option Nat) (r : Sys × Eff × Int)
    (hinv : peerInv sys) (h : tu_dial sys a t = some r) : peerInv r.1 := by
  cases hl : lookupTU sys a with
  | none => rw [tu_dial, hl] at h; simp at h
  | some d =>
    by_cases hs : d.state ≠ .TU_DIAL_TONE
    · obtain ⟨e, he⟩ :=
        notify_state_some sys a d hl (peerInv_connected_peer sys a d hinv hl)
      rw [tu_dial_noop sys a t d e hl hs he] at h
      cases h
      exact hinv
    · push_neg at hs
      have hpn : d.peer = none :=
        peerInv_peer_none sys a d hinv hl (by rw [hs]; simp [stateNeedsPeer])
      cases t with
      | none =>
        rw [tu_dial_nullTarget sys a d hl hs] at h
        cases h
        apply peerInv_set1 sys _ a _ hinv (lookupTU_updateTU_self sys a _ d hl)
          (fun j hja => lookupTU_updateTU_ne sys a j _ hja)
          (fun j dj hj _ => peerInv_nopointer sys a d hinv hl hpn j dj hj)
          (by simp [hpn, stateNeedsPeer])
          (fun q hq => by simp [hpn] at hq)
      | some tt =>
        cases hlt : lookupTU sys tt with
        | none =>
          have hno : ¬ d.state ≠ .TU_DIAL_TONE := fun hh => hh hs
          simp only [tu_dial, hl, Option.some_bind, if_neg hno, hlt,
            Option.none_bind] at h
          exact Option.noConfusion h
        | some td =>
          by_cases hcond : a = tt ∨ td.state ≠ .TU_ON_HOOK ∨ td.peer ≠ none
          · rw [tu_dial_busy sys a tt d td hl hs hlt hcond] at h
            cases h
            apply peerInv_set1 sys _ a _ hinv (lookupTU_updateTU_self sys a _ d hl)
              (fun j hja => lookupTU_updateTU_ne sys a j _ hja)
              (fun j dj hj _ => peerInv_nopointer sys a d hinv hl hpn j dj hj)
              (by simp [hpn, stateNeedsPeer])
              (fun q hq => by simp [hpn] at hq)
          · push_neg at hcond
            obtain ⟨hat, hts, htp⟩ := hcond
            obtain ⟨sys2, eff, heq, ha2, ht2, hframe, _⟩ :=
              tu_dial_success sys a tt d td hl hs hlt hat hts htp
            rw [heq] at h
            cases h
            apply peerInv_set2 sys sys2 a tt _ _ hat hinv ha2 ht2 hframe
              (fun j dj hj _ _ hcon => peerInv_nopointer sys a d hinv hl hpn j dj hj hcon)
              (fun j dj hj _ _ hcon => peerInv_nopointer sys tt td hinv hlt htp j dj hj hcon)
              (by simp [stateNeedsPeer])
              (by simp [stateNeedsPeer])
              (fun q hq => ⟨(Option.some.inj (by simpa using hq)).symm, rfl⟩)
              (fun q hq => ⟨(Option.some.inj (by simpa using hq)).symm, rfl⟩)

/-- `tu_hangup` preserves the peer invariant. -/
theorem tu_hangup_preserves (sys : Sys) (a : Nat) (r : Sys × Eff × Int)
    (hinv : peerInv sys) (h : tu_hangup sys a = some r) : peerInv r.1 := by
  cases hl : lookupTU sys a with
  | none => rw [tu_hangup, hl] at h; simp at h
  | some d =>
    by_cases h1 : d.state = .TU_CONNECTED ∨ d.state = .TU_RINGING
    · have hps := (hinv a d hl).1.mpr (by
        rcases h1 with h1 | h1
        · exact Or.inr (Or.inr h1)
        · exact Or.inl h1)
      obtain ⟨p, hp⟩ := Option.isSome_iff_exists.mp hps
      obtain ⟨pd, hpd, hback⟩ := (hinv a d hl).2 p hp
      by_cases hap : a = p
      · subst hap
        obtain ⟨sys2, eff, heq, ha2, hframe⟩ := tu_hangup_pair_self sys a d hl h1 hp
        rw [heq] at h
        cases h
        apply peerInv_set1 sys sys2 a _ hinv ha2 hframe
          (fun j dj hj hja hcon =>
            hja (peerInv_pointer_unique sys a a d hinv hl hp j dj hj hcon))
          (by simp [stateNeedsPeer])
          (fun q hq => by simp at hq)
      · obtain ⟨sys2, eff, heq, ha2, hb2, hframe, _⟩ :=
          tu_hangup_pair sys a p d pd hl h1 hp hap hpd
        rw [heq] at h
        cases h
        by_cases hz : pd.ref_count - 1 = 0
        · rw [if_pos hz] at hb2
          apply peerInv_set1_remove sys sys2 a p _ hap hinv ha2 hb2 hframe
            (fun j dj hj hja hjp hcon =>
              hjp (peerInv_pointer_unique sys p a pd hinv hpd hback j dj hj hcon))
            (fun j dj hj hja hjp hcon =>
              hja (peerInv_pointer_unique sys a p d hinv hl hp j dj hj hcon))
            (by simp [stateNeedsPeer])
            (by simp)
        · rw [if_neg hz] at hb2
          apply peerInv_set2 sys sys2 a p _ _ hap hinv ha2 hb2 hframe
            (fun j dj hj hja hjp hcon =>
              hjp (peerInv_pointer_unique sys p a pd hinv hpd hback j dj hj hcon))
            (fun j dj hj hja hjp hcon =>
              hja (peerInv_pointer_unique sys a p d hinv hl hp j dj hj hcon))
            (by simp [stateNeedsPeer])
            (by simp [stateNeedsPeer])
            (fun q hq => by simp at hq)
            (fun q hq => by simp at hq)
    · by_cases h2 : d.state = .TU_RING_BACK
      · have hps := (hinv a d hl).1.mpr (Or.inr (Or.inl h2))
        obtain ⟨p, hp⟩ := Option.isSome_iff_exists.mp hps
        obtain ⟨pd, hpd, hback⟩ := (hinv a d hl).2 p hp
        by_cases hap : a = p
        · subst hap
          obtain ⟨sys2, eff, heq, ha2, hframe⟩ := tu_hangup_ringback_self sys a d hl h2 hp
          rw [heq] at h
          cases h
          apply peerInv_set1 sys sys2 a _ hinv ha2 hframe
            (fun j dj hj hja hcon =>
              hja (peerInv_pointer_unique sys a a d hinv hl hp j dj hj hcon))
            (by simp [stateNeedsPeer])
            (fun q hq => by simp at hq)
        · obtain ⟨sys2, eff, heq, ha2, hb2, hframe, _⟩ :=
            tu_hangup_ringback_pair sys a p d pd hl h2 hp hap hpd
          rw [heq] at h
          cases h
          by_cases hz : pd.ref_count - 1 = 0
          · rw [if_pos hz] at hb2
            apply peerInv_set1_remove sys sys2 a p _ hap hinv ha2 hb2 hframe
              (fun j dj hj hja hjp hcon =>
                hjp (peerInv_pointer_unique sys p a pd hinv hpd hback j dj hj hcon))
              (fun j dj hj hja hjp hcon =>
                hja (peerInv_pointer_unique sys a p d hinv hl hp j dj hj hcon))
              (by simp [stateNeedsPeer])
              (by simp)
          · rw [if_neg hz] at hb2
            apply peerInv_set2 sys sys2 a p _ _ hap hinv ha2 hb2 hframe
              (fun j dj hj hja hjp hcon =>
                hjp (peerInv_pointer_unique sys p a pd hinv hpd hback j dj hj hcon))
              (fun j dj hj hja hjp hcon =>
                hja (peerInv_pointer_unique sys a p d hinv hl hp j dj hj hcon))
              (by simp [stateNeedsPeer])
              (by simp [stateNeedsPeer])
              (fun q hq => by simp at hq)
              (fun q hq => by simp at hq)
      · by_cases h3 : d.state = .TU_DIAL_TONE ∨ d.state = .TU_BUSY_SIGNAL ∨
            d.state = .TU_ERROR
        · have hpn : d.peer = none := peerInv_peer_none sys a d hinv hl (by
            rcases h3 with h3 | h3 | h3 <;> rw [h3] <;> simp [stateNeedsPeer])
          obtain ⟨sys2, eff, heq, ha2, hframe, _⟩ := tu_hangup_solo sys a d hl h3 hpn
          rw [heq] at h
          cases h
          apply peerInv_set1 sys sys2 a _ hinv ha2 hframe
            (fun j dj hj _ => peerInv_nopointer sys a d hinv hl hpn j dj hj)
            (by simp [stateNeedsPeer])
            (fun q hq => by simp at hq)
        · have h4 : d.state = .TU_ON_HOOK := by
            cases hst : d.state
            case TU_ON_HOOK => rfl
            all_goals (rw [hst] at h1 h2 h3; simp at h1 h2 h3)
          rw [tu_hangup_onhook sys a d hl h4] at h
          cases h
          exact hinv

/-- `tu_unref` (at any fuel) preserves the peer invariant. -/
theorem tu_unrefF_preserves (f : Nat) (sys : Sys) (t : Option Nat) (r : Sys × Eff)
    (hinv : peerInv sys) (h : tu_unrefF f sys t = some r) : peerInv r.1 := by
  cases t with
  | none =>
    cases f with
    | zero => cases h; exact hinv
    | succ f => cases h; exact hinv
  | some i =>
    cases f with
    | zero => simp [tu_unrefF] at h
    | succ f =>
      cases hl : lookupTU sys i with
      | none => rw [tu_unrefF, hl] at h; simp at h
      | some d =>
        by_cases hz : d.ref_count - 1 = 0
        · cases hp : d.peer with
          | none =>
            rw [tu_unrefF_zero_noPeer f sys i d hl hz hp] at h
            cases h
            apply peerInv_remove1 sys _ i hinv
            · rw [lookupTU_removeTU]
              simp
            · intro j hja
              have hja2 : ¬ i = j := fun hh => hja hh.symm
              rw [lookupTU_removeTU, if_neg hja2, lookupTU_updateTU_ne sys i j _ hja]
            · exact fun j dj hj _ => peerInv_nopointer sys i d hinv hl hp j dj hj
          | some p =>
            simp only [tu_unrefF, hl, Option.some_bind, if_pos hz, hp] at h
            rw [Option.bind_eq_some] at h
            obtain ⟨pd, hpd, h⟩ := h
            rw [Option.bind_eq_some] at h
            obtain ⟨rr, hrr, h⟩ := h
            rw [Option.bind_eq_some] at h
            obtain ⟨pd2, hpd2, h⟩ := h
            rw [Option.bind_eq_some] at h
            obtain ⟨d2, hd2, h⟩ := h
            by_cases hip : i = p
            · subst hip
              have hpdEq : { d with ref_count := d.ref_count - 1, peer := some i } = pd :=
                Option.some.inj ((lookupTU_updateTU_self sys i _ d hl).symm.trans hpd)
              have hrc_pd : pd.ref_count = d.ref_count - 1 := by rw [← hpdEq]
              have hz2 : ({ pd with state := TU_STATE.TU_ON_HOOK } : TUData).ref_count - 1
                  ≠ 0 := by
                show pd.ref_count - 1 ≠ 0
                omega
              cases f with
              | zero => simp [tu_unrefF] at hrr
              | succ f2 =>
                rw [tu_unrefF_dec f2 _ i _
                  (lookupTU_updateTU_self _ i _ _ hpd) hz2] at hrr
                cases hrr
                cases h
                apply peerInv_remove1 sys _ i hinv
                · rw [lookupTU_removeTU]
                  simp
                · intro j hja
                  have hja2 : ¬ i = j := fun hh => hja hh.symm
                  rw [lookupTU_removeTU, if_neg hja2,
                    lookupTU_updateTU_ne _ i j _ hja, lookupTU_updateTU_ne _ i j _ hja,
                    lookupTU_updateTU_ne _ i j _ hja, lookupTU_updateTU_ne sys i j _ hja]
                · intro j dj hj hja hcon
                  exact hja (peerInv_pointer_unique sys i i d hinv hl hp j dj hj hcon)
            · have hpi : p ≠ i := fun hh => hip hh.symm
              have hpdSys : lookupTU sys p = some pd :=
                (lookupTU_updateTU_ne sys i p _ hpi).symm.trans hpd
              obtain ⟨pdx, hpdx, hbackx⟩ := (hinv i d hl).2 p hp
              rw [hpdSys] at hpdx
              cases hpdx
              have hs2 : lookupTU (updateTU (updateTU sys i
                  { d with ref_count := d.ref_count - 1, peer := some p }) p
                  { pd with state := .TU_ON_HOOK }) p =
                  some { pd with state := .TU_ON_HOOK } :=
                lookupTU_updateTU_self _ p _ _ hpd
              by_cases hz2 : pd.ref_count - 1 = 0
              · have hgone := tu_unrefF_zero_removes f _ p _ rr hrr hs2 hz2
                rw [hgone] at hpd2
                cases hpd2
              · cases f with
                | zero => simp [tu_unrefF] at hrr
                | succ f2 =>
                  rw [tu_unrefF_dec f2 _ p _ hs2 hz2] at hrr
                  cases hrr
                  have hpd2Eq := Option.some.inj
                    ((lookupTU_updateTU_self _ p _ _ hs2).symm.trans hpd2)
                  have hstate2 : pd2.state = .TU_ON_HOOK := by rw [← hpd2Eq]
                  cases h
                  apply peerInv_set1_remove sys _ p i _ hpi hinv
                  · rw [lookupTU_removeTU, if_neg (fun hh => hip hh)]
                    exact lookupTU_updateTU_self _ p _ _ hpd2
                  · rw [lookupTU_removeTU]
                    simp
                  · intro j hjp hji
                    have hji2 : ¬ i = j := fun hh => hji hh.symm
                    rw [lookupTU_removeTU, if_neg hji2,
                      lookupTU_updateTU_ne _ p j _ hjp, lookupTU_updateTU_ne _ p j _ hjp,
                      lookupTU_updateTU_ne _ p j _ hjp, lookupTU_updateTU_ne sys i j _ hji]
                  · intro j dj hj hjp hji hcon
                    exact hji (peerInv_pointer_unique sys i p d hinv hl hp j dj hj hcon)
                  · intro j dj hj hjp hji hcon
                    exact hjp (peerInv_pointer_unique sys p i pd hinv hpdSys hbackx j dj hj hcon)
                  · simp [hstate2, stateNeedsPeer]
                  · simp
        · rw [tu_unrefF_dec f sys i d hl hz] at h
          cases h
          exact peerInv_update_same sys i d _ hinv hl rfl rfl

/-! ## Claim C8 -/

/-- Claim C8: the peer invariant — a TU's peer pointer is set iff its
state is `TU_RINGING`, `TU_RING_BACK` or `TU_CONNECTED`, and peering is
symmetric — is preserved by every TU operation: dial, pickup, hangup,
chat, and unref (including its zero-count cleanup). -/
theorem C8_peer_invariant_preserved :
    (∀ (sys : Sys) (i : Nat) (t : Option Nat) (r : Sys × Eff × Int),
      peerInv sys → tu_dial sys i t = some r → peerInv r.1) ∧
    (∀ (sys : Sys) (i : Nat) (r : Sys × Eff × Int),
      peerInv sys → tu_pickup sys i = some r → peerInv r.1) ∧
    (∀ (sys : Sys) (i : Nat) (r : Sys × Eff × Int),
      peerInv sys → tu_hangup sys i = some r → peerInv r.1) ∧
    (∀ (sys : Sys) (i : Nat) (m : String) (r : Sys × Eff × Int),
      peerInv sys → tu_chat sys i m = some r → peerInv r.1) ∧
    (∀ (f : Nat) (sys : Sys) (t : Option Nat) (r : Sys × Eff),
      peerInv sys → tu_unrefF f sys t = some r → peerInv r.1) :=
  ⟨fun sys i t r hinv h => tu_dial_preserves sys i t r hinv h,
   fun sys i r hinv h => tu_pickup_preserves sys i r hinv h,
   fun sys i r hinv h => tu_hangup_preserves sys i r hinv h,
   fun sys i m r hinv h => by rw [tu_chat_heap sys i m r h]; exact hinv,
   fun f sys t r hinv h => tu_unrefF_preserves f sys t r hinv h⟩

/-- Claim C8, witness: the invariant holds after the successful concrete
dial from TU 1 to TU 2 in `sysC5`. -/
theorem C8_peer_invariant_preserved_witness :
    peerInv (((tu_dial sysC5 1 (some 2)).getD (sysC5, {}, 0)).1) := by
  have hinv : peerInv sysC5 := by
    intro i d hI
    simp only [sysC5, lookupTU] at hI
    split_ifs at hI with h1 h2
    · cases hI
      exact ⟨by simp [stateNeedsPeer], fun p hp => by simp at hp⟩
    · cases hI
      exact ⟨by simp [stateNeedsPeer], fun p hp => by simp at hp⟩
  exact C8_peer_invariant_preserved.1 sysC5 1 (some 2) _ hinv rfl
